import Mathlib

/-!
Shallow embedding of the music trivia dataset builder and the two
scoreboard apps of this repository, translated from the Python sources
(build_dataset_from_spotify.py, trivia_scoreboard_app.py,
sound_bite_app.py).  Python strings are modelled as Lean strings whose
operations are implemented structurally on the underlying character
lists, numeric audio descriptors as exact rationals, dictionaries with
possibly-missing keys as structures with Option fields, and fallible
Python code as Option/Except values.  Calls into random.shuffle and
random.randrange are modelled by quantifying over the permutation or
slot the pseudorandom source produces.
-/

namespace SongSnap

/-- Whitespace characters stripped by the Python str.strip method and by
the int builtin (ASCII fragment). -/
def pySpaceChar (c : Char) : Bool :=
  c = ' ' || c = '\t' || c = '\n' || c = '\r' || c = '\x0b' || c = '\x0c'

/-- Modelled from the Python str.strip method: removes leading and
trailing whitespace. -/
def pyStrip (s : String) : String :=
  ⟨((s.data.dropWhile pySpaceChar).reverse.dropWhile pySpaceChar).reverse⟩

/-- The decimal value of a digit run. -/
def digitsVal (l : List Char) : Nat :=
  l.foldl (fun a c => a * 10 + (c.toNat - 48)) 0

/-- Modelled from the Python builtin int applied to the tail of a digit
run whose leading digits have the given value: decimal digits with
optional single underscores between them (an underscore must sit between
two digits); none when the remaining characters break the run. -/
def pyDigitRunFrom (acc : Nat) : List Char → Option Nat
  | [] => some acc
  | [c] => if c.isDigit then some (acc * 10 + (c.toNat - 48)) else none
  | c :: c2 :: rest =>
      if c.isDigit then pyDigitRunFrom (acc * 10 + (c.toNat - 48)) (c2 :: rest)
      else if c = '_' then
        (if c2.isDigit then pyDigitRunFrom (acc * 10 + (c2.toNat - 48)) rest else none)
      else none

/-- A full digit run: at least one leading digit, then the rest of the
run. -/
def pyDigitRun : List Char → Option Nat
  | [] => none
  | c :: rest => if c.isDigit then pyDigitRunFrom (c.toNat - 48) rest else none

/-- The optional sign and digit run of a Python integer literal. -/
def pyIntCore : List Char → Option Int
  | [] => none
  | c :: rest =>
      if c = '+' then (pyDigitRun rest).map (fun n => (n : Int))
      else if c = '-' then (pyDigitRun rest).map (fun n => -(n : Int))
      else (pyDigitRun (c :: rest)).map (fun n => (n : Int))

/-- Modelled from the Python builtin int applied to a string: whitespace
is stripped, then an optional sign is followed by a digit run.  A
ValueError is modelled as none. -/
def pyInt (s : String) : Option Int :=
  pyIntCore (pyStrip s).data

/-- From build_dataset_from_spotify.py, year_from_date: int(release_date[:4]),
with any exception mapped to None.  The Python slice release_date[:4] is
modelled by taking the first four characters.  The function is total, so
it never raises. -/
def year_from_date (release_date : String) : Option Int :=
  pyInt ⟨release_date.data.take 4⟩

/-- Splitting a character list at every occurrence of a separator
character, modelling the Python str.split method with a one-character
separator. -/
def splitChar (sep : Char) : List Char → List (List Char)
  | [] => [[]]
  | c :: rest =>
      if c = sep then [] :: splitChar sep rest
      else
        match splitChar sep rest with
        | [] => [[c]]
        | h :: t => (c :: h) :: t

/-- Modelled from the Python str.split method with a one-character
separator. -/
def pySplit (sep : Char) (s : String) : List String :=
  (splitChar sep s.data).map String.mk

/-- Modelled from the Python str.startswith method. -/
def pyStartsWith (s p : String) : Bool :=
  p.data.isPrefixOf s.data

/-- Joining character lists with a separator character. -/
def joinSep (sep : Char) : List (List Char) → List Char
  | [] => []
  | [x] => x
  | x :: y :: rest => x ++ sep :: joinSep sep (y :: rest)

/-- Characters allowed in a URL scheme after the first alphabetic one. -/
def schemeChar (c : Char) : Bool :=
  c.isAlphanum || c = '+' || c = '-' || c = '.'

/-- Modelled from the Python standard library urllib.parse (external
dependency): removes a leading scheme such as https: when the text
before the first colon is a valid scheme name. -/
def splitScheme (s : String) : String :=
  match pySplit ':' s with
  | head :: rest =>
      if rest ≠ [] ∧ head.data ≠ [] ∧ (head.data.headD ' ').isAlpha ∧ head.data.all schemeChar then
        ⟨joinSep ':' (rest.map String.data)⟩
      else s
  | [] => s

/-- Modelled from the Python standard library urllib.parse (external
dependency): removes a scheme-relative authority //host, leaving the
path that starts at the first slash after it. -/
def dropAuthority (s : String) : String :=
  if pyStartsWith s "//" then
    ⟨(s.data.drop 2).dropWhile (fun c => c ≠ '/')⟩
  else s

/-- Modelled from the Python standard library urllib.parse.urlparse
(external dependency): the path component of a reference, obtained by
stripping the fragment, the query, a leading scheme and the authority. -/
def urlparsePath (url : String) : String :=
  let noFrag := (pySplit '#' url).headD ""
  let noQuery := (pySplit '?' noFrag).headD ""
  dropAuthority (splitScheme noQuery)

/-- From build_dataset_from_spotify.py, parse_playlist_id.  The Python
code indexes parts[-1], which raises IndexError when the segment list is
empty; that exception is modelled as none. -/
def parse_playlist_id (url : String) : Option String :=
  if pyStartsWith url "spotify:playlist:" then
    some ((pySplit ':' url).getLastD "")
  else
    let parts := ((pySplit '/' (urlparsePath url))).filter (fun p => p ≠ "")
    if 2 ≤ parts.length ∧ parts.headD "" = "playlist" then parts.get? 1
    else parts.getLast?

/-- Modelled from the Python str.lower method (ASCII fragment). -/
def pyLower (s : String) : String :=
  ⟨s.data.map Char.toLower⟩

/-- Joining character lists with a separator list, modelling the Python
str.join method. -/
def joinList (sep : List Char) : List (List Char) → List Char
  | [] => []
  | [x] => x
  | x :: y :: rest => x ++ sep ++ joinList sep (y :: rest)

/-- Word characters of the Python re module (ASCII fragment). -/
def isWordChar (c : Char) : Bool :=
  c.isAlphanum || c = '_'

/-- A word boundary fits next to this neighbouring character (none at
the ends of the text). -/
def boundaryOk : Option Char → Bool
  | none => true
  | some c => !(isWordChar c)

/-- The word w occurs at the head of t and is followed by a word
boundary. -/
def wordAt (w t : List Char) : Bool :=
  w.isPrefixOf t && boundaryOk (t.drop w.length).head?

/-- Scanning t for an occurrence of w enclosed by word boundaries; prev
is the character just before the current position. -/
def searchWordFrom (w : List Char) (prev : Option Char) : List Char → Bool
  | [] => boundaryOk prev && wordAt w []
  | c :: rest => (boundaryOk prev && wordAt w (c :: rest)) || searchWordFrom w (some c) rest

/-- Modelled from the Python re.search of a pattern of the shape
\b(w1|w2|...)\b against text t: some alternative occurs in t enclosed by
word boundaries.  All alternatives used by the source consist of word
characters only, so this captures the patterns of TITLE_EMOJI_MAP
exactly. -/
def regexWordAlt (alts : List String) (t : String) : Bool :=
  alts.any (fun w => searchWordFrom w.data none t.data)

/-- From build_dataset_from_spotify.py, TITLE_EMOJI_MAP: each regex
pattern is represented by its list of word alternatives. -/
def TITLE_EMOJI_MAP : List (List String × String) :=
  [ (["love", "heart", "romance", "kiss"], "❤️"),
    (["night", "midnight", "moon", "dark"], "🌙"),
    (["day", "sun", "summer", "hot", "heat"], "☀️"),
    (["star", "light", "shine", "bright"], "✨"),
    (["rain", "tears", "cry", "sad"], "🌧️"),
    (["fire", "burn", "flame", "hot"], "🔥"),
    (["blue", "sad"], "🔵"),
    (["red"], "🔴"),
    (["gold", "yellow"], "🟡"),
    (["road", "drive", "car", "ride", "highway"], "🚗"),
    (["city", "town"], "🏙️"),
    (["ocean", "sea", "wave", "beach"], "🌊"),
    (["dance", "party", "club"], "🕺"),
    (["king", "queen", "royal"], "👑"),
    (["phone", "call", "ring"], "📞"),
    (["angel", "devil"], "😇"),
    (["devil", "bad"], "😈"),
    (["happy", "joy", "smile"], "😊"),
    (["cry", "tears"], "😭"),
    (["young", "youth"], "🧒") ]

/-- From build_dataset_from_spotify.py, the loop body of
emoji_from_title: append the glyph of each matching pattern and break
once three glyphs have been collected. -/
def titleEmojiLoop (t : String) : List (List String × String) → List String → List String
  | [], out => out
  | (pat, emo) :: rest, out =>
      let out2 := if regexWordAlt pat t then out ++ [emo] else out
      if 3 ≤ out2.length then out2 else titleEmojiLoop t rest out2

/-- From build_dataset_from_spotify.py, emoji_from_title. -/
def emoji_from_title (title : String) : List String :=
  titleEmojiLoop (pyLower title) TITLE_EMOJI_MAP []

/-- From build_dataset_from_spotify.py, GENRE_EMOJI_MAP. -/
def GENRE_EMOJI_MAP : List (String × String) :=
  [ ("k-pop", "🇰🇷"),
    ("emo", "🖤"),
    ("pop punk", "🧷"),
    ("indie", "🌿"),
    ("hip hop", "🎤"),
    ("rap", "🎤"),
    ("r&b", "🎶"),
    ("latin", "🪇"),
    ("dance", "💃"),
    ("edm", "🎛️"),
    ("house", "🏠"),
    ("country", "🤠"),
    ("jazz", "🎺"),
    ("rock", "🎸"),
    ("metal", "🤘"),
    ("soul", "🫀"),
    ("funk", "🕶️") ]

/-- The pattern list occurs as a contiguous substring of the text,
modelling the Python membership test key in g on strings. -/
def containsSub (p : List Char) : List Char → Bool
  | [] => p.isEmpty
  | c :: rest => p.isPrefixOf (c :: rest) || containsSub p rest

/-- From build_dataset_from_spotify.py, the loop body of
emoji_from_genres: append the glyph of each key occurring in the joined
genre text and break once two glyphs have been collected. -/
def genreEmojiLoop (g : String) : List (String × String) → List String → List String
  | [], out => out
  | (key, emo) :: rest, out =>
      let out2 := if containsSub key.data g.data then out ++ [emo] else out
      if 2 ≤ out2.length then out2 else genreEmojiLoop g rest out2

/-- From build_dataset_from_spotify.py, emoji_from_genres. -/
def emoji_from_genres (genres : List String) : List String :=
  genreEmojiLoop (pyLower ⟨joinList ", ".data (genres.map String.data)⟩) GENRE_EMOJI_MAP []

/-- Audio descriptors of one track, as returned by the audio-features
endpoint.  The Python code reads the fields with dict.get and a default,
so each field is an Option; the float values are modelled as exact
rationals. -/
structure AudioFeatures where
  danceability : Option ℚ
  energy : Option ℚ
  valence : Option ℚ
  acousticness : Option ℚ
  tempo : Option ℚ
  deriving DecidableEq

/-- From build_dataset_from_spotify.py, emoji_from_audio_features.  The
argument is none when the Python dict is falsy (None or empty), in which
case the function returns no glyphs. -/
def emoji_from_audio_features (af : Option AudioFeatures) : List String :=
  match af with
  | none => []
  | some af =>
      let out1 : List String := if mkRat 7 10 ≤ af.danceability.getD 0 then ["🕺"] else []
      let out2 := out1 ++ (if mkRat 7 10 ≤ af.energy.getD 0 then ["⚡"] else [])
      let val := af.valence.getD 0
      let out3 := out2 ++
        (if mkRat 65 100 ≤ val then ["😊"] else if val ≤ mkRat 35 100 then ["😢"] else [])
      let out4 := out3 ++ (if mkRat 6 10 ≤ af.acousticness.getD 0 then ["🎻"] else [])
      let tempo := af.tempo.getD 0
      let out5 := out4 ++
        (if tempo ≠ 0 then
          (if mkRat 130 1 ≤ tempo then ["⏱️"] else if tempo ≤ mkRat 80 1 then ["🐢"] else [])
         else [])
      out5.take 3

/-- From build_dataset_from_spotify.py, the de-duplication loop of
synth_emoji_riddle: keep the first occurrence of each glyph, break once
five glyphs have been kept. -/
def riddleDedup : List String → List String → List String → List String
  | [], final, _ => final
  | p :: rest, final, seen =>
      let fs := if p ∈ seen then (final, seen) else (final ++ [p], seen ++ [p])
      if 5 ≤ fs.1.length then fs.1 else riddleDedup rest fs.1 fs.2

/-- From build_dataset_from_spotify.py, synth_emoji_riddle: concatenate
the title, genre and acoustic passes, fall back to the fixed three-glyph
list when the result is empty, de-duplicate, cap at five glyphs and join
into one string. -/
def synth_emoji_riddle (title : String) (genres : List String) (af : Option AudioFeatures) : String :=
  let parts := emoji_from_title title ++ emoji_from_genres genres ++ emoji_from_audio_features af
  let parts2 := if parts = [] then ["🎵", "✨", "🎧"] else parts
  ⟨((riddleDedup parts2 [] []).map String.data).flatten⟩

example : emoji_from_title "" = [] := by decide
example : emoji_from_title "Love in the Dark" = ["❤️", "🌙"] := by decide
example : emoji_from_title "lovely" = [] := by decide
example : emoji_from_title "Hot Summer Night Fire Star" = ["🌙", "☀️", "✨"] := by decide
example : emoji_from_genres ["K-Pop", "dance pop"] = ["🇰🇷", "💃"] := by decide
example : emoji_from_genres [] = [] := by decide
example : synth_emoji_riddle "zzz" [] none = "🎵✨🎧" := by decide
example : emoji_from_audio_features (some ⟨some 0, some 0, some (mkRat 1 2), some 0, some 0⟩) = [] := by decide
example : emoji_from_audio_features (some ⟨some 1, some 1, some 1, some 1, some (mkRat 140 1)⟩) = ["🕺", "⚡", "😊"] := by decide
example : emoji_from_audio_features none = [] := by decide

/-- One credited artist of a track payload: the id and name keys of the
artist object (the id may be null). -/
structure ArtistRef where
  id : Option String
  name : String
  deriving DecidableEq, Inhabited

/-- The flattened minimal track dict built in main of
build_dataset_from_spotify.py (lines 201-211). -/
structure RawTrack where
  id : Option String
  name : String
  artists : List ArtistRef
  album : String
  release_date : String
  year : Option Int
  preview_url : String
  popularity : Int
  external_url : String
  deriving DecidableEq, Inhabited

/-- From build_dataset_from_spotify.py, choice_label: the display label
of a track.  When the artists list is empty (falsy), the code falls back
to the absent artist key, whose dict.get default is the empty string. -/
def choice_label (t : RawTrack) : String :=
  let artists : String :=
    if t.artists.isEmpty then "" else ⟨joinList ", ".data (t.artists.map (fun a => a.name.data))⟩
  t.name ++ " — " ++ artists

/-- From build_dataset_from_spotify.py, the for-loop of build_choices:
walk the shuffled indices, skip the correct index and candidates whose
lower-cased label was already seen, append fresh candidates and stop
once k+1 labels are collected. -/
def bcLoop (all_tracks : List RawTrack) (correct_idx k : Nat) :
    List Nat → List String → List String → List String
  | [], out, _ => out
  | j :: rest, out, seen =>
      if j = correct_idx then bcLoop all_tracks correct_idx k rest out seen
      else
        let cand := choice_label (all_tracks.getD j default)
        if pyLower cand ∈ seen then bcLoop all_tracks correct_idx k rest out seen
        else
          let out2 := out ++ [cand]
          if k + 1 ≤ out2.length then out2
          else bcLoop all_tracks correct_idx k rest out2 (seen ++ [pyLower cand])

/-- From build_dataset_from_spotify.py, build_choices.  The call
random.shuffle(idxs) is modelled by the idxs parameter, quantified over
permutations of range(len(all_tracks)) at the theorems; the final
random.shuffle(out) is modelled there by quantifying over permutations
of the returned list. -/
def build_choices (all_tracks : List RawTrack) (correct_idx : Nat) (k : Nat)
    (idxs : List Nat) : List String :=
  let correct := choice_label (all_tracks.getD correct_idx default)
  bcLoop all_tracks correct_idx k idxs [correct] [pyLower correct]

/-- The index of the first element equal to the searched label, as the
generator expression of correct_answer_index enumerates it. -/
def firstMatchIdx (correct_label : String) : List String → Option Nat
  | [] => none
  | c :: rest =>
      if c = correct_label then some 0 else (firstMatchIdx correct_label rest).map (· + 1)

/-- From build_dataset_from_spotify.py, correct_answer_index: the first
index whose choice equals the correct label, defaulting to 0. -/
def correct_answer_index (choices : List String) (correct_label : String) : Nat :=
  (firstMatchIdx correct_label choices).getD 0

/-- One track payload of a playlist item, with the keys the builder
reads.  Keys read through dict.get are Options; is_local is false when
the key is absent or set to a falsy value (as for episode payloads);
media_type records the payload type and is never inspected by the
code.  The two-level accesses t.get("album", {}).get(key, "") are
collapsed into one Option each. -/
structure PlaylistTrack where
  id : Option String
  name : Option String
  artists : List ArtistRef
  album_name : Option String
  album_release_date : Option String
  preview_url : Option String
  popularity : Option Int
  external_spotify_url : Option String
  is_local : Bool
  media_type : String
  deriving DecidableEq, Inhabited

/-- From build_dataset_from_spotify.py, the dict appended to raw_tracks
for one retained payload (lines 201-211). -/
def flatten_track (t : PlaylistTrack) : RawTrack :=
  { id := t.id
    name := t.name.getD ""
    artists := t.artists
    album := t.album_name.getD ""
    release_date := t.album_release_date.getD ""
    year := year_from_date (t.album_release_date.getD "")
    preview_url := t.preview_url.getD ""
    popularity := t.popularity.getD 0
    external_url := t.external_spotify_url.getD "" }

/-- From build_dataset_from_spotify.py, the filtering loop of main
(lines 194-211): an item is skipped when its track payload is missing
(falsy) or flagged is_local; every other payload is flattened and
retained. -/
def flatten_items : List (Option PlaylistTrack) → List RawTrack
  | [] => []
  | none :: rest => flatten_items rest
  | some t :: rest =>
      if t.is_local then flatten_items rest else flatten_track t :: flatten_items rest

/-- Configuration constant of build_dataset_from_spotify.py. -/
def MAX_TRACKS : Nat := 0

/-- Configuration constant of build_dataset_from_spotify.py. -/
def PACK_NAME : String := "Playlist Import"

/-- Modelled from the Python builtin round on a rational value: round
half to even, as used for the facts lines. -/
def pyRound (q : ℚ) : Int :=
  let f := Int.fdiv q.num q.den
  let r := q - f
  if r < mkRat 1 2 then f
  else if mkRat 1 2 < r then f + 1
  else if f % 2 = 0 then f else f + 1

/-- Printing an optional year the way a Python f-string prints it: None
becomes the text None. -/
def optIntStr : Option Int → String
  | some y => toString y
  | none => "None"

/-- From build_dataset_from_spotify.py, the quick-facts block of main
(lines 256-274): fixed-order conditional appends. -/
def track_facts (tr : RawTrack) (af : Option AudioFeatures) : List String :=
  let tempo := af.bind AudioFeatures.tempo
  let dance := af.bind AudioFeatures.danceability
  let energy := af.bind AudioFeatures.energy
  let val := af.bind AudioFeatures.valence
  let l1 : List String := [if tr.album ≠ "" then s!"From album: {tr.album}" else "Single release"]
  let l2 := l1 ++ (match tr.year with
    | some y => if y ≠ 0 then [s!"Release year: {y}"] else []
    | none => [])
  let l3 := l2 ++ (match tempo with
    | some t => if t ≠ 0 then [s!"Tempo: {pyRound t} BPM"] else []
    | none => [])
  let l4 := l3 ++ (match dance with
    | some d => [s!"Danceability: {pyRound (d * mkRat 100 1)}/100"]
    | none => [])
  let l5 := l4 ++ (match energy with
    | some e => [s!"Energy: {pyRound (e * mkRat 100 1)}/100"]
    | none => [])
  let l6 := l5 ++ (match val with
    | some v => [s!"Mood (valence): {pyRound (v * mkRat 100 1)}/100"]
    | none => [])
  l6 ++ (if tr.popularity ≠ 0 then [s!"Spotify popularity: {tr.popularity}/100"] else [])

/-- From build_dataset_from_spotify.py, the context_hint expression of
main (line 287). -/
def context_hint (tr : RawTrack) : String :=
  if tr.album ≠ "" then s!"From '{tr.album}' ({optIntStr tr.year})"
  else match tr.year with
    | some y => if y ≠ 0 then s!"Released in {y}" else "Album info not available"
    | none => "Album info not available"

/-- Zero-padding of the Python format i:04d. -/
def pad4 (i : Nat) : String :=
  let s := toString i
  ⟨List.replicate (4 - s.length) '0' ++ s.data⟩

/-- One emitted dataset row (lines 277-292 of the builder).  The
list-valued cells choices_json and facts_json are modelled as the lists
they serialize. -/
structure Row where
  id : String
  title : String
  artist : String
  emoji : String
  choices : List String
  answer_idx : Nat
  preview_1s_url : String
  preview_3s_url : String
  preview_5s_url : String
  context_hint : String
  facts : List String
  pack : String
  year : Option Int
  tv_movie_ref : String
  deriving DecidableEq, Inhabited

/-- The pseudorandom draws one pipeline run consumes, one entry per row
index: the shuffled index order inside build_choices, the final shuffle
of the choice list, and the slot of the defensive overwrite. -/
structure Oracle where
  shuffledIdxs : Nat → List Nat
  shuffleChoices : Nat → List String → List String
  overwriteSlot : Nat → Nat

/-- From build_dataset_from_spotify.py, the body of the row-building
loop of main (lines 240-292) at index i.  random.randrange(len(choices))
is modelled by the oracle slot taken modulo the length. -/
def buildRow (raw : List RawTrack) (afMap : String → Option AudioFeatures)
    (genreMap : String → List String) (o : Oracle) (i : Nat) : Row :=
  let tr := raw.getD i default
  let genres := (tr.artists.map (fun a => match a.id with
    | some g => genreMap g
    | none => [])).flatten
  let af := match tr.id with
    | some k => afMap k
    | none => none
  let emojis := synth_emoji_riddle tr.name genres af
  let correct := choice_label tr
  let choices0 := o.shuffleChoices i (build_choices raw i 3 (o.shuffledIdxs i))
  let choices := if correct ∈ choices0 then choices0
    else choices0.set (o.overwriteSlot i % choices0.length) correct
  { id := "sp_" ++ pad4 i
    title := tr.name
    artist := ⟨joinList ", ".data (tr.artists.map (fun a => a.name.data))⟩
    emoji := emojis
    choices := choices
    answer_idx := correct_answer_index choices correct
    preview_1s_url := tr.preview_url
    preview_3s_url := tr.preview_url
    preview_5s_url := tr.preview_url
    context_hint := context_hint tr
    facts := track_facts tr af
    pack := PACK_NAME
    year := match tr.year with
      | some y => if y = 0 then none else some y
      | none => none
    tv_movie_ref := "" }

/-- One element of an sp.audio_features batch result (line 224): none
models a falsy entry (skipped by line 226); a feature dict carries the
id key read through f.get and the descriptor fields the rest of the
program reads. -/
structure AFEntry where
  id : Option String
  features : AudioFeatures
  deriving DecidableEq

/-- One element of an sp.artists batch result (lines 234-236): the
mandatory id key and the genres key read through a.get, none covering
an absent or null value. -/
structure ArtistEntry where
  id : String
  genres : Option (List String)
  deriving DecidableEq

/-- Accumulator form of the slicing loop: collect elements into the
current batch and emit it once it holds n elements, emitting a final
shorter batch when elements remain. -/
def chunkAux {α : Type} (n : Nat) : List α → List α → List (List α)
  | [], acc => if acc.isEmpty then [] else [acc]
  | x :: rest, acc =>
      let acc2 := acc ++ [x]
      if n ≤ acc2.length then acc2 :: chunkAux n rest [] else chunkAux n rest acc2

/-- The consecutive slices l[i:i+n] that a batching loop
range(0, len(l), n) walks, the last one possibly shorter. -/
def chunkList {α : Type} (n : Nat) (l : List α) : List (List α) :=
  chunkAux n l []

/-- Running one fallible batched endpoint call over every batch in
order, concatenating the per-batch results; the first raising call
halts the loop, modelling an uncaught exception inside main. -/
def fetchBatches {α β : Type} (call : List α → Except String (List β)) :
    List (List α) → Except String (List β)
  | [] => .ok []
  | b :: rest =>
      match call b with
      | .error e => .error e
      | .ok xs =>
          match fetchBatches call rest with
          | .error e => .error e
          | .ok ys => .ok (xs ++ ys)

/-- The audio_features_map insertion loop (lines 225-227): every truthy
entry with a truthy id is written under that id, later writes winning.
The dict is an association list with the newest binding in front, so
List.lookup returns the last write. -/
def afMapOfEntries (entries : List (Option AFEntry)) :
    List (String × AudioFeatures) :=
  entries.foldl (fun m e =>
    match e with
    | none => m
    | some f =>
        match f.id with
        | none => m
        | some k => if k = "" then m else (k, f.features) :: m) []

/-- The artist_genre_map insertion loop (lines 235-236): every entry is
written under its id with a.get("genres", []) or [] as the value, later
writes winning; the newest binding sits in front as above. -/
def genreMapOfEntries (entries : List ArtistEntry) :
    List (String × List String) :=
  entries.foldl (fun m a => (a.id, a.genres.getD []) :: m) []

/-- The artist_ids set collected during the filtering loop (line 199):
the truthy artist ids of every retained track, each kept once.  Python
set iteration order is unspecified; this list fixes one representative
order, first occurrence first. -/
def artist_ids_of (raw0 : List RawTrack) : List String :=
  ((raw0.map (fun t => t.artists.filterMap (fun a =>
    match a.id with
    | some k => if k = "" then none else some k
    | none => none))).flatten).dedup

/-- The fatal halting conditions of a run: the listing call fails, zero
eligible tracks remain after filtering, or an enrichment batch call —
sp.audio_features (line 224) or sp.artists (line 234) — raises, which
nothing catches. -/
inductive RunError where
  | fetchFailure (msg : String)
  | noTracks
  | enrichmentFailure (msg : String)
  deriving DecidableEq

/-- The user-facing message of each fatal condition; noTracks carries
the SystemExit text of line 218 of the builder, the other two the text
of the uncaught exception. -/
def runErrorMessage : RunError → String
  | .fetchFailure msg => msg
  | .noTracks => "No tracks found (is the playlist private?)."
  | .enrichmentFailure msg => msg

/-- From build_dataset_from_spotify.py, main after the playlist fetch
(lines 191-295): filter the items collecting track ids (line 198) and
the artist id set (line 199), apply the track cap, abort when no tracks
remain, fetch audio features in batches of 100 and artist genres in
batches of 50 — a raising batch call halts the run uncaught — and
otherwise build every row.  Returning ok models writing the complete
CSV; returning an error models aborting before any output is written. -/
def pipeline (items : List (Option PlaylistTrack))
    (afCall : List (Option String) → Except String (List (Option AFEntry)))
    (artistsCall : List String → Except String (List ArtistEntry))
    (o : Oracle) : Except RunError (List Row) :=
  let raw0 := flatten_items items
  let track_ids0 := raw0.map RawTrack.id
  let artistIds := artist_ids_of raw0
  let raw := if MAX_TRACKS > 0 then raw0.take MAX_TRACKS else raw0
  let track_ids := if MAX_TRACKS > 0 then
      (raw.map RawTrack.id).filter (fun x =>
        match x with
        | some k => !(k == "")
        | none => false)
    else track_ids0
  if raw = [] then .error .noTracks
  else
    match fetchBatches afCall (chunkList 100 track_ids) with
    | .error e => .error (.enrichmentFailure e)
    | .ok afEntries =>
        match fetchBatches artistsCall
            (chunkList 50 (artistIds.filter (fun a => !(a == "")))) with
        | .error e => .error (.enrichmentFailure e)
        | .ok artistEntries =>
            let afm := afMapOfEntries afEntries
            let gm := genreMapOfEntries artistEntries
            .ok ((List.range raw.length).map (fun i =>
              buildRow raw (fun k => List.lookup k afm)
                (fun k => (List.lookup k gm).getD []) o i))

/-- A whole run: a failed fetch propagates as a fatal error before the
pipeline runs; a successful fetch hands the items to the pipeline. -/
def runPipeline (fetched : Except String (List (Option PlaylistTrack)))
    (afCall : List (Option String) → Except String (List (Option AFEntry)))
    (artistsCall : List String → Except String (List ArtistEntry))
    (o : Oracle) : Except RunError (List Row) :=
  match fetched with
  | .error e => .error (.fetchFailure e)
  | .ok items => pipeline items afCall artistsCall o

/-- A Python value reaching to_int_or_none of trivia_scoreboard_app.py:
None, an int, a str, or a float (modelled as an exact rational). -/
inductive PyVal where
  | vnone
  | vint (n : Int)
  | vstr (s : String)
  | vfloat (q : ℚ)
  deriving DecidableEq

/-- Truncation toward zero, modelling the Python builtin int applied to
a float value. -/
def ratTruncate (q : ℚ) : Int :=
  if 0 ≤ q.num then Int.fdiv q.num q.den else -(Int.fdiv (-q.num) q.den)

/-- Parsing an optionally signed digit run (the exponent of a float
literal). -/
def parseSignedDigits (l : List Char) : Option Int :=
  match l with
  | '+' :: rest => if rest ≠ [] ∧ rest.all Char.isDigit then some (digitsVal rest) else none
  | '-' :: rest => if rest ≠ [] ∧ rest.all Char.isDigit then some (-(digitsVal rest : Int)) else none
  | _ => if l ≠ [] ∧ l.all Char.isDigit then some (digitsVal l) else none

/-- The exponent suffix of a float literal: empty, or e/E followed by a
signed digit run. -/
def parseExpSuffix : List Char → Option Int
  | [] => some 0
  | 'e' :: rest => parseSignedDigits rest
  | 'E' :: rest => parseSignedDigits rest
  | _ => none

/-- Parsing an unsigned decimal float literal into its mantissa value
and decimal scale: digits with an optional fractional part, or a bare
fractional part, then an optional exponent.  The represented value is
the mantissa times ten to the scale. -/
def parseUnsignedFloat (l : List Char) : Option (Nat × Int) :=
  let intPart := l.takeWhile Char.isDigit
  let rest1 := l.dropWhile Char.isDigit
  match rest1 with
  | '.' :: rest2 =>
      let fracPart := rest2.takeWhile Char.isDigit
      let rest3 := rest2.dropWhile Char.isDigit
      if intPart = [] ∧ fracPart = [] then none
      else (parseExpSuffix rest3).map (fun e =>
        (digitsVal (intPart ++ fracPart), e - fracPart.length))
  | rest =>
      if intPart = [] then none
      else (parseExpSuffix rest).map (fun e => (digitsVal intPart, e))

/-- The rational value of a signed mantissa at a decimal scale. -/
def floatVal (neg : Bool) (m : Nat) (scale : Int) : ℚ :=
  let n : Int := if neg then -(m : Int) else m
  if 0 ≤ scale then mkRat (n * ((10 : Nat) ^ scale.toNat : Nat)) 1
  else mkRat n ((10 : Nat) ^ (-scale).toNat)

/-- Modelled from the Python builtin float applied to a stripped string:
an optional sign followed by a decimal literal.  Values such as inf or
nan, on which the subsequent int call raises, are mapped to none, since
to_int_or_none turns both failure modes into None. -/
def pyFloatOfString (s : String) : Option ℚ :=
  match (pyStrip s).data with
  | '+' :: rest => (parseUnsignedFloat rest).map (fun p => floatVal false p.1 p.2)
  | '-' :: rest => (parseUnsignedFloat rest).map (fun p => floatVal true p.1 p.2)
  | l => (parseUnsignedFloat l).map (fun p => floatVal false p.1 p.2)

/-- From trivia_scoreboard_app.py, to_int_or_none (lines 58-66): None
stays None, strings are stripped and rejected when empty, and every
other value goes through int(float(x)), with any exception mapped to
None. -/
def to_int_or_none : PyVal → Option Int
  | .vnone => none
  | .vstr s =>
      let s2 := pyStrip s
      if s2 = "" then none else (pyFloatOfString s2).map ratTruncate
  | .vint n => some n
  | .vfloat q => some (ratTruncate q)

/-- From trivia_scoreboard_app.py, score_year (lines 68-76): coerce both
arguments, award the full 500 points with error 0 when either fails to
coerce, and otherwise 500 minus 50 per year of error, floored at 0. -/
def score_year (year_true year_guess : PyVal) : Int × Int :=
  match to_int_or_none year_true, to_int_or_none year_guess with
  | some yt, some yg =>
      let dy := |yt - yg|
      (max 0 (500 - 50 * dy), dy)
  | _, _ => (500, 0)

/-- The dict returned by score_guess of sound_bite_app.py. -/
structure ScoreResult where
  score : Int
  details : List String
  year_err : Option Int
  pop_err : Option Int
  total_err : Option Int
  deriving DecidableEq

/-- From sound_bite_app.py, score_guess (lines 65-99): each available
ground truth contributes a capped linear penalty subtracted from 1000;
with no ground truth the score is 0, otherwise it is clamped below at
50. -/
def score_guess (year_true pop_true : Option Int) (year_guess pop_guess : Int) : ScoreResult :=
  let yr : Nat × Int × List String :=
    match year_true with
    | some y =>
        let dy := |y - year_guess|
        let pen := min (20 * dy) 600
        (1, pen, [s!"Year off by {dy} → −{pen} pts"])
    | none => (0, 0, ["Year unavailable → no penalty"])
  let pp : Nat × Int × List String :=
    match pop_true with
    | some p =>
        let dp := |p - pop_guess|
        let pen := min (8 * dp) 600
        (1, pen, [s!"Popularity off by {dp} → −{pen} pts"])
    | none => (0, 0, ["Popularity unavailable → no penalty"])
  let parts := yr.1 + pp.1
  if parts = 0 then
    { score := 0, details := ["No ground truth in dataset."],
      year_err := none, pop_err := none, total_err := none }
  else
    { score := max 50 (1000 - yr.2.1 - pp.2.1)
      details := yr.2.2 ++ pp.2.2
      year_err := year_true.map (fun y => |y - year_guess|)
      pop_err := pop_true.map (fun p => |p - pop_guess|)
      total_err := some ((match year_true with
        | some y => |y - year_guess|
        | none => 0) + (match pop_true with
        | some p => |p - pop_guess|
        | none => 0)) }

example : (score_year (PyVal.vint 1989) (PyVal.vint 1991)) = (400, 2) := by decide
example : (score_year PyVal.vnone (PyVal.vint 1991)) = (500, 0) := by decide
example : to_int_or_none (PyVal.vstr " 1989.5 ") = some 1989 := by decide
example : to_int_or_none (PyVal.vstr "") = none := by decide
example : to_int_or_none (PyVal.vstr "abc") = none := by decide
example : (score_guess none none 2000 50).score = 0 := by decide
example : (score_guess (some 1990) (some 40) 2000 50).score = 720 := by decide
example : (score_guess (some 1900) (some 0) 2000 100).score = 50 := by decide

example : year_from_date "1989-06-23" = some 1989 := by decide
example : year_from_date "1989" = some 1989 := by decide
example : year_from_date "" = none := by decide
example : year_from_date "unknown" = none := by decide
example : parse_playlist_id "https://service.example/playlist/ABC123" = some "ABC123" := by decide
example : parse_playlist_id "spotify:playlist:XYZ987" = some "XYZ987" := by decide
example : parse_playlist_id "https://service.example/onlyseg" = some "onlyseg" := by decide
example : parse_playlist_id "https://service.example/a/playlist/ABC/extra" = some "extra" := by decide
example : parse_playlist_id "https://open.spotify.com/playlist/5Op8h4120je5thN58Qaeyo?si=U41i1n9rRLWtm8d-cCDQYg" = some "5Op8h4120je5thN58Qaeyo" := by decide

section BuildChoicesLemmas

variable (tracks : List RawTrack) (ci k : Nat)

theorem bcLoop_cons_skip {j : Nat} (rest : List Nat) (out seen : List String)
    (hj : j = ci) :
    bcLoop tracks ci k (j :: rest) out seen = bcLoop tracks ci k rest out seen := by
  simp only [bcLoop]
  rw [if_pos hj]

theorem bcLoop_cons_seen {j : Nat} (rest : List Nat) (out seen : List String)
    (hj : j ≠ ci) (hseen : pyLower (choice_label (tracks.getD j default)) ∈ seen) :
    bcLoop tracks ci k (j :: rest) out seen = bcLoop tracks ci k rest out seen := by
  simp only [bcLoop]
  rw [if_neg hj, if_pos hseen]

theorem bcLoop_cons_break {j : Nat} (rest : List Nat) (out seen : List String)
    (hj : j ≠ ci) (hseen : pyLower (choice_label (tracks.getD j default)) ∉ seen)
    (hlen : k + 1 ≤ (out ++ [choice_label (tracks.getD j default)]).length) :
    bcLoop tracks ci k (j :: rest) out seen =
      out ++ [choice_label (tracks.getD j default)] := by
  simp only [bcLoop]
  rw [if_neg hj, if_neg hseen, if_pos hlen]

theorem bcLoop_cons_add {j : Nat} (rest : List Nat) (out seen : List String)
    (hj : j ≠ ci) (hseen : pyLower (choice_label (tracks.getD j default)) ∉ seen)
    (hlen : ¬ k + 1 ≤ (out ++ [choice_label (tracks.getD j default)]).length) :
    bcLoop tracks ci k (j :: rest) out seen =
      bcLoop tracks ci k rest (out ++ [choice_label (tracks.getD j default)])
        (seen ++ [pyLower (choice_label (tracks.getD j default))]) := by
  simp only [bcLoop]
  rw [if_neg hj, if_neg hseen, if_neg hlen]

theorem bcLoop_extends : ∀ (idxs : List Nat) (out seen : List String),
    ∃ ext, bcLoop tracks ci k idxs out seen = out ++ ext := by
  intro idxs
  induction idxs with
  | nil => intro out seen; exact ⟨[], by simp [bcLoop]⟩
  | cons j rest ih =>
    intro out seen
    by_cases hj : j = ci
    · rw [bcLoop_cons_skip tracks ci k rest out seen hj]; exact ih out seen
    · by_cases hseen : pyLower (choice_label (tracks.getD j default)) ∈ seen
      · rw [bcLoop_cons_seen tracks ci k rest out seen hj hseen]; exact ih out seen
      · by_cases hlen : k + 1 ≤ (out ++ [choice_label (tracks.getD j default)]).length
        · rw [bcLoop_cons_break tracks ci k rest out seen hj hseen hlen]
          exact ⟨[choice_label (tracks.getD j default)], rfl⟩
        · rw [bcLoop_cons_add tracks ci k rest out seen hj hseen hlen]
          obtain ⟨ext, hext⟩ :=
            ih (out ++ [choice_label (tracks.getD j default)])
              (seen ++ [pyLower (choice_label (tracks.getD j default))])
          exact ⟨[choice_label (tracks.getD j default)] ++ ext, by rw [hext, List.append_assoc]⟩

theorem bcLoop_length : ∀ (idxs : List Nat) (out seen : List String),
    out.length ≤ k → (bcLoop tracks ci k idxs out seen).length ≤ k + 1 := by
  intro idxs
  induction idxs with
  | nil => intro out seen h; simp only [bcLoop]; omega
  | cons j rest ih =>
    intro out seen h
    by_cases hj : j = ci
    · rw [bcLoop_cons_skip tracks ci k rest out seen hj]; exact ih out seen h
    · by_cases hseen : pyLower (choice_label (tracks.getD j default)) ∈ seen
      · rw [bcLoop_cons_seen tracks ci k rest out seen hj hseen]; exact ih out seen h
      · by_cases hlen : k + 1 ≤ (out ++ [choice_label (tracks.getD j default)]).length
        · rw [bcLoop_cons_break tracks ci k rest out seen hj hseen hlen]
          simp only [List.length_append, List.length_singleton]
          omega
        · rw [bcLoop_cons_add tracks ci k rest out seen hj hseen hlen]
          refine ih _ _ ?_
          simp only [List.length_append, List.length_singleton] at hlen ⊢
          omega

theorem bcLoop_nodup : ∀ (idxs : List Nat) (out : List String),
    (out.map pyLower).Nodup →
    ((bcLoop tracks ci k idxs out (out.map pyLower)).map pyLower).Nodup := by
  intro idxs
  induction idxs with
  | nil => intro out h; simpa only [bcLoop] using h
  | cons j rest ih =>
    intro out h
    by_cases hj : j = ci
    · rw [bcLoop_cons_skip tracks ci k rest out _ hj]; exact ih out h
    · by_cases hseen : pyLower (choice_label (tracks.getD j default)) ∈ out.map pyLower
      · rw [bcLoop_cons_seen tracks ci k rest out _ hj hseen]; exact ih out h
      · have h2 : ((out ++ [choice_label (tracks.getD j default)]).map pyLower).Nodup := by
          rw [List.map_append]
          refine List.Nodup.append h (by simp) ?_
          intro a ha hb
          simp only [List.map_cons, List.map_nil, List.mem_singleton] at hb
          exact hseen (hb ▸ ha)
        by_cases hlen : k + 1 ≤ (out ++ [choice_label (tracks.getD j default)]).length
        · rw [bcLoop_cons_break tracks ci k rest out _ hj hseen hlen]; exact h2
        · rw [bcLoop_cons_add tracks ci k rest out _ hj hseen hlen]
          have h3 := ih (out ++ [choice_label (tracks.getD j default)]) h2
          rw [List.map_append] at h3
          exact h3

theorem bcLoop_sources : ∀ (idxs : List Nat) (out seen : List String) (c : String),
    c ∈ bcLoop tracks ci k idxs out seen →
    c ∈ out ∨ ∃ j ∈ idxs, c = choice_label (tracks.getD j default) := by
  intro idxs
  induction idxs with
  | nil => intro out seen c hc; simp only [bcLoop] at hc; exact Or.inl hc
  | cons j rest ih =>
    intro out seen c hc
    by_cases hj : j = ci
    · rw [bcLoop_cons_skip tracks ci k rest out seen hj] at hc
      rcases ih out seen c hc with h | ⟨j2, hj2, hc2⟩
      · exact Or.inl h
      · exact Or.inr ⟨j2, List.mem_cons_of_mem _ hj2, hc2⟩
    · by_cases hseen : pyLower (choice_label (tracks.getD j default)) ∈ seen
      · rw [bcLoop_cons_seen tracks ci k rest out seen hj hseen] at hc
        rcases ih out seen c hc with h | ⟨j2, hj2, hc3⟩
        · exact Or.inl h
        · exact Or.inr ⟨j2, List.mem_cons_of_mem _ hj2, hc3⟩
      · by_cases hlen : k + 1 ≤ (out ++ [choice_label (tracks.getD j default)]).length
        · rw [bcLoop_cons_break tracks ci k rest out seen hj hseen hlen] at hc
          rcases List.mem_append.mp hc with h | h
          · exact Or.inl h
          · exact Or.inr ⟨j, List.mem_cons_self _ _, by simpa using h⟩
        · rw [bcLoop_cons_add tracks ci k rest out seen hj hseen hlen] at hc
          rcases ih _ _ c hc with h | ⟨j2, hj2, hc3⟩
          · rcases List.mem_append.mp h with h2 | h2
            · exact Or.inl h2
            · exact Or.inr ⟨j, List.mem_cons_self _ _, by simpa using h2⟩
          · exact Or.inr ⟨j2, List.mem_cons_of_mem _ hj2, hc3⟩

theorem bcLoop_covers : ∀ (idxs : List Nat) (out : List String),
    (bcLoop tracks ci k idxs out (out.map pyLower)).length ≤ k →
    ∀ j ∈ idxs, j ≠ ci →
      pyLower (choice_label (tracks.getD j default)) ∈
        (bcLoop tracks ci k idxs out (out.map pyLower)).map pyLower := by
  intro idxs
  induction idxs with
  | nil => intro out _ j hj; simp at hj
  | cons j0 rest ih =>
    intro out hlen j hj hjci
    by_cases h0 : j0 = ci
    · rw [bcLoop_cons_skip tracks ci k rest out _ h0] at hlen ⊢
      rcases List.mem_cons.mp hj with rfl | hjr
      · exact absurd h0 hjci
      · exact ih out hlen j hjr hjci
    · by_cases hseen : pyLower (choice_label (tracks.getD j0 default)) ∈ out.map pyLower
      · rw [bcLoop_cons_seen tracks ci k rest out _ h0 hseen] at hlen ⊢
        rcases List.mem_cons.mp hj with rfl | hjr
        · obtain ⟨ext, hext⟩ := bcLoop_extends tracks ci k rest out (out.map pyLower)
          rw [hext, List.map_append]
          exact List.mem_append.mpr (Or.inl hseen)
        · exact ih out hlen j hjr hjci
      · by_cases hlen2 : k + 1 ≤ (out ++ [choice_label (tracks.getD j0 default)]).length
        · rw [bcLoop_cons_break tracks ci k rest out _ h0 hseen hlen2] at hlen
          exfalso
          simp only [List.length_append, List.length_singleton] at hlen hlen2
          omega
        · rw [bcLoop_cons_add tracks ci k rest out _ h0 hseen hlen2] at hlen ⊢
          rw [show (out.map pyLower ++ [pyLower (choice_label (tracks.getD j0 default))]) =
              ((out ++ [choice_label (tracks.getD j0 default)]).map pyLower) by
            rw [List.map_append]; rfl] at hlen ⊢
          rcases List.mem_cons.mp hj with rfl | hjr
          · obtain ⟨ext, hext⟩ := bcLoop_extends tracks ci k rest
              (out ++ [choice_label (tracks.getD j default)])
              ((out ++ [choice_label (tracks.getD j default)]).map pyLower)
            rw [hext, List.map_append]
            refine List.mem_append.mpr (Or.inl ?_)
            rw [List.map_append]
            exact List.mem_append.mpr (Or.inr (by simp))
          · exact ih _ hlen j hjr hjci

theorem build_choices_def (idxs : List Nat) :
    build_choices tracks ci k idxs =
      bcLoop tracks ci k idxs [choice_label (tracks.getD ci default)]
        [pyLower (choice_label (tracks.getD ci default))] := rfl

theorem build_choices_mem_correct (idxs : List Nat) :
    choice_label (tracks.getD ci default) ∈ build_choices tracks ci k idxs := by
  obtain ⟨ext, hext⟩ := bcLoop_extends tracks ci k idxs
    [choice_label (tracks.getD ci default)] [pyLower (choice_label (tracks.getD ci default))]
  rw [build_choices_def, hext]
  exact List.mem_append_left _ (List.mem_singleton_self _)

theorem build_choices_length_pos (idxs : List Nat) :
    1 ≤ (build_choices tracks ci k idxs).length := by
  obtain ⟨ext, hext⟩ := bcLoop_extends tracks ci k idxs
    [choice_label (tracks.getD ci default)] [pyLower (choice_label (tracks.getD ci default))]
  rw [build_choices_def, hext]
  simp only [List.length_append, List.length_singleton]
  omega

theorem build_choices_length_le (hk : 1 ≤ k) (idxs : List Nat) :
    (build_choices tracks ci k idxs).length ≤ k + 1 := by
  have h := bcLoop_length tracks ci k idxs
    [choice_label (tracks.getD ci default)] [pyLower (choice_label (tracks.getD ci default))]
    (by simpa using hk)
  rw [build_choices_def]
  exact h

theorem build_choices_nodup (idxs : List Nat) :
    ((build_choices tracks ci k idxs).map pyLower).Nodup := by
  have h := bcLoop_nodup tracks ci k idxs [choice_label (tracks.getD ci default)] (by simp)
  rw [build_choices_def]
  exact h

theorem build_choices_sources (idxs : List Nat) (hci : ci < tracks.length)
    (hidx : ∀ j ∈ idxs, j < tracks.length) (c : String)
    (hc : c ∈ build_choices tracks ci k idxs) :
    ∃ t ∈ tracks, c = choice_label t := by
  rcases bcLoop_sources tracks ci k idxs
      [choice_label (tracks.getD ci default)] [pyLower (choice_label (tracks.getD ci default))]
      c (by rw [build_choices_def] at hc; exact hc) with h | ⟨j, hj, hc2⟩
  · refine ⟨tracks.getD ci default, ?_, by simpa using h⟩
    have hgd : tracks.getD ci default = tracks[ci] := by
      rw [List.getD_eq_getElem?_getD, List.getElem?_eq_getElem hci]; rfl
    rw [hgd]
    exact List.getElem_mem hci
  · refine ⟨tracks.getD j default, ?_, hc2⟩
    have hjl := hidx j hj
    have hgd : tracks.getD j default = tracks[j] := by
      rw [List.getD_eq_getElem?_getD, List.getElem?_eq_getElem hjl]; rfl
    rw [hgd]
    exact List.getElem_mem hjl

theorem build_choices_complete (idxs : List Nat) (hci : ci < tracks.length) (hk : 1 ≤ k)
    (hperm : idxs.Perm (List.range tracks.length))
    (hdist : k + 1 ≤ ((tracks.map (fun t => pyLower (choice_label t))).dedup).length) :
    (build_choices tracks ci k idxs).length = k + 1 := by
  by_contra hne
  have hle := build_choices_length_le tracks ci k hk idxs
  have hlt : (build_choices tracks ci k idxs).length ≤ k := by omega
  have hcov := bcLoop_covers tracks ci k idxs [choice_label (tracks.getD ci default)]
    (by rw [build_choices_def] at hlt; exact hlt)
  have hsub : (tracks.map (fun t => pyLower (choice_label t))).dedup ⊆
      (build_choices tracks ci k idxs).map pyLower := by
    intro a ha
    have ha2 : a ∈ tracks.map (fun t => pyLower (choice_label t)) := List.dedup_subset _ ha
    obtain ⟨t, ht, rfl⟩ := List.mem_map.mp ha2
    obtain ⟨i2, hi2, rfl⟩ := List.mem_iff_getElem.mp ht
    have hgetD : tracks.getD i2 default = tracks[i2] := by
      rw [List.getD_eq_getElem?_getD, List.getElem?_eq_getElem hi2]; rfl
    by_cases hic : i2 = ci
    · subst hic
      rw [← hgetD]
      exact List.mem_map_of_mem _ (build_choices_mem_correct tracks i2 k idxs)
    · have hj : i2 ∈ idxs := hperm.mem_iff.mpr (List.mem_range.mpr hi2)
      have h3 := hcov i2 hj hic
      rw [← hgetD, build_choices_def]
      exact h3
  have hnd : ((tracks.map (fun t => pyLower (choice_label t))).dedup).Nodup :=
    List.nodup_dedup _
  have hsp := hnd.subperm hsub
  have hlen2 := hsp.length_le
  simp only [List.length_map] at hlen2
  omega

end BuildChoicesLemmas

theorem firstMatch_spec (c : String) : ∀ (l : List String), c ∈ l →
    ∃ n, firstMatchIdx c l = some n ∧ l[n]? = some c := by
  intro l
  induction l with
  | nil => simp
  | cons x xs ih =>
    intro hc
    by_cases hx : x = c
    · exact ⟨0, by simp [firstMatchIdx, hx], by simp [hx]⟩
    · have hc2 : c ∈ xs := by
        rcases List.mem_cons.mp hc with h | h
        · exact absurd h.symm hx
        · exact h
      obtain ⟨n, h1, h2⟩ := ih hc2
      exact ⟨n + 1, by simp [firstMatchIdx, hx, h1], by simpa using h2⟩

/-- C1: for every track batch and correct index, with the two shuffles
modelled by an arbitrary permutation idxs of the index range and an
arbitrary permutation final of the returned list, the choice list built
with the default k = 3 consists of pairwise case-insensitively distinct
display labels of batch tracks, has between 1 and 4 elements (exactly 4
when the batch holds at least 4 case-insensitively distinct labels),
contains the correct label exactly once, and correct_answer_index
locates that label, so answer_idx points to it. -/
theorem claim_c1_choice_set_invariant
    (tracks : List RawTrack) (i : Nat) (idxs : List Nat) (final : List String)
    (hi : i < tracks.length)
    (hperm : idxs.Perm (List.range tracks.length))
    (hfinal : final.Perm (build_choices tracks i 3 idxs)) :
    ((final.map pyLower).Nodup) ∧
    (∀ c ∈ final, ∃ t ∈ tracks, c = choice_label t) ∧
    1 ≤ final.length ∧ final.length ≤ 4 ∧
    (4 ≤ ((tracks.map (fun t => pyLower (choice_label t))).dedup).length →
      final.length = 4) ∧
    final.count (choice_label (tracks.getD i default)) = 1 ∧
    final[correct_answer_index final (choice_label (tracks.getD i default))]? =
      some (choice_label (tracks.getD i default)) := by
  have hidx : ∀ j ∈ idxs, j < tracks.length := by
    intro j hj
    exact List.mem_range.mp (hperm.mem_iff.mp hj)
  have hnodup : (final.map pyLower).Nodup :=
    ((hfinal.map pyLower).nodup_iff).mpr (build_choices_nodup tracks i 3 idxs)
  have hlen := hfinal.length_eq
  have hmem : choice_label (tracks.getD i default) ∈ final :=
    hfinal.mem_iff.mpr (build_choices_mem_correct tracks i 3 idxs)
  have hcount : final.count (choice_label (tracks.getD i default)) = 1 :=
    List.count_eq_one_of_mem (hnodup.of_map) hmem
  obtain ⟨n, hn1, hn2⟩ := firstMatch_spec (choice_label (tracks.getD i default)) final hmem
  refine ⟨hnodup, ?_, ?_, ?_, ?_, hcount, ?_⟩
  · intro c hc
    exact build_choices_sources tracks i 3 idxs hi hidx c (hfinal.mem_iff.mp hc)
  · rw [hlen]; exact build_choices_length_pos tracks i 3 idxs
  · rw [hlen]; exact build_choices_length_le tracks i 3 (by omega) idxs
  · intro hdist
    rw [hlen]
    exact build_choices_complete tracks i 3 idxs hi (by omega) hperm hdist
  · rw [correct_answer_index, hn1]
    exact hn2

/-- A concrete five-track batch used to instantiate the hypotheses of
the choice-set theorem. -/
def wTracks : List RawTrack :=
  [ { id := some "t0", name := "Alpha", artists := [⟨some "a0", "X"⟩], album := "", release_date := "",
      year := none, preview_url := "", popularity := 0, external_url := "" },
    { id := some "t1", name := "Beta", artists := [⟨some "a1", "Y"⟩], album := "", release_date := "",
      year := none, preview_url := "", popularity := 0, external_url := "" },
    { id := some "t2", name := "Gamma", artists := [], album := "", release_date := "",
      year := none, preview_url := "", popularity := 0, external_url := "" },
    { id := some "t3", name := "Delta", artists := [], album := "", release_date := "",
      year := none, preview_url := "", popularity := 0, external_url := "" },
    { id := some "t4", name := "Epsilon", artists := [], album := "", release_date := "",
      year := none, preview_url := "", popularity := 0, external_url := "" } ]

theorem claim_c1_witness :
    (build_choices wTracks 0 3 [3, 1, 4, 0, 2]).length = 4 ∧
    (build_choices wTracks 0 3 [3, 1, 4, 0, 2]).count
      (choice_label (wTracks.getD 0 default)) = 1 := by
  have h := claim_c1_choice_set_invariant wTracks 0 [3, 1, 4, 0, 2]
    (build_choices wTracks 0 3 [3, 1, 4, 0, 2]) (by decide) (by decide) (List.Perm.refl _)
  exact ⟨h.2.2.2.2.1 (by decide), h.2.2.2.2.2.1⟩

theorem titleEmojiLoop_sources (t : String) :
    ∀ (table : List (List String × String)) (out : List String) (x : String),
      x ∈ titleEmojiLoop t table out → x ∈ out ∨ x ∈ table.map Prod.snd := by
  intro table
  induction table with
  | nil => intro out x hx; simp only [titleEmojiLoop] at hx; exact Or.inl hx
  | cons pe rest ih =>
    intro out x hx
    obtain ⟨pat, emo⟩ := pe
    simp only [titleEmojiLoop] at hx
    by_cases hm : regexWordAlt pat t
    · rw [if_pos hm] at hx
      by_cases hl : 3 ≤ (out ++ [emo]).length
      · rw [if_pos hl] at hx
        rcases List.mem_append.mp hx with h | h
        · exact Or.inl h
        · exact Or.inr (by simp at h; simp [h])
      · rw [if_neg hl] at hx
        rcases ih (out ++ [emo]) x hx with h | h
        · rcases List.mem_append.mp h with h2 | h2
          · exact Or.inl h2
          · exact Or.inr (by simp at h2; simp [h2])
        · exact Or.inr (List.mem_cons_of_mem _ h)
    · rw [if_neg hm] at hx
      by_cases hl : 3 ≤ out.length
      · rw [if_pos hl] at hx; exact Or.inl hx
      · rw [if_neg hl] at hx
        rcases ih out x hx with h | h
        · exact Or.inl h
        · exact Or.inr (List.mem_cons_of_mem _ h)

theorem genreEmojiLoop_sources (g : String) :
    ∀ (table : List (String × String)) (out : List String) (x : String),
      x ∈ genreEmojiLoop g table out → x ∈ out ∨ x ∈ table.map Prod.snd := by
  intro table
  induction table with
  | nil => intro out x hx; simp only [genreEmojiLoop] at hx; exact Or.inl hx
  | cons pe rest ih =>
    intro out x hx
    obtain ⟨key, emo⟩ := pe
    simp only [genreEmojiLoop] at hx
    by_cases hm : containsSub key.data g.data
    · rw [if_pos hm] at hx
      by_cases hl : 2 ≤ (out ++ [emo]).length
      · rw [if_pos hl] at hx
        rcases List.mem_append.mp hx with h | h
        · exact Or.inl h
        · exact Or.inr (by simp at h; simp [h])
      · rw [if_neg hl] at hx
        rcases ih (out ++ [emo]) x hx with h | h
        · rcases List.mem_append.mp h with h2 | h2
          · exact Or.inl h2
          · exact Or.inr (by simp at h2; simp [h2])
        · exact Or.inr (List.mem_cons_of_mem _ h)
    · rw [if_neg hm] at hx
      by_cases hl : 2 ≤ out.length
      · rw [if_pos hl] at hx; exact Or.inl hx
      · rw [if_neg hl] at hx
        rcases ih out x hx with h | h
        · exact Or.inl h
        · exact Or.inr (List.mem_cons_of_mem _ h)

theorem emoji_from_audio_features_ne_empty (af : Option AudioFeatures) :
    ∀ x ∈ emoji_from_audio_features af, x ≠ "" := by
  intro x hx
  cases af with
  | none => simp [emoji_from_audio_features] at hx
  | some a =>
    have hx2 := List.take_subset 3 _ hx
    simp only [emoji_from_audio_features] at hx2
    rcases List.mem_append.mp hx2 with h | h
    · rcases List.mem_append.mp h with h | h
      · rcases List.mem_append.mp h with h | h
        · rcases List.mem_append.mp h with h | h
          · split_ifs at h <;> simp_all
          · split_ifs at h <;> simp_all
        · split_ifs at h <;> simp_all
      · split_ifs at h <;> simp_all
    · split_ifs at h <;> simp_all

theorem emoji_from_title_ne_empty (t : String) : ∀ x ∈ emoji_from_title t, x ≠ "" := by
  intro x hx
  rcases titleEmojiLoop_sources (pyLower t) TITLE_EMOJI_MAP [] x hx with h | h
  · simp at h
  · have hpool : ∀ y ∈ TITLE_EMOJI_MAP.map Prod.snd, y ≠ "" := by decide
    exact hpool x h

theorem emoji_from_genres_ne_empty (g : List String) : ∀ x ∈ emoji_from_genres g, x ≠ "" := by
  intro x hx
  rcases genreEmojiLoop_sources _ GENRE_EMOJI_MAP [] x hx with h | h
  · simp at h
  · have hpool : ∀ y ∈ GENRE_EMOJI_MAP.map Prod.snd, y ≠ "" := by decide
    exact hpool x h

theorem riddleDedup_extends : ∀ (parts final seen : List String),
    ∃ ext, riddleDedup parts final seen = final ++ ext := by
  intro parts
  induction parts with
  | nil => intro final seen; exact ⟨[], by simp [riddleDedup]⟩
  | cons p rest ih =>
    intro final seen
    by_cases hp : p ∈ seen
    · simp only [riddleDedup, if_pos hp]
      by_cases hl : 5 ≤ final.length
      · rw [if_pos hl]; exact ⟨[], by simp⟩
      · rw [if_neg hl]; exact ih final seen
    · simp only [riddleDedup, if_neg hp]
      by_cases hl : 5 ≤ (final ++ [p]).length
      · rw [if_pos hl]; exact ⟨[p], rfl⟩
      · rw [if_neg hl]
        obtain ⟨ext, hext⟩ := ih (final ++ [p]) (seen ++ [p])
        exact ⟨[p] ++ ext, by rw [hext, List.append_assoc]⟩

theorem riddleDedup_sources : ∀ (parts final seen : List String) (x : String),
    x ∈ riddleDedup parts final seen → x ∈ final ∨ x ∈ parts := by
  intro parts
  induction parts with
  | nil => intro final seen x hx; simp only [riddleDedup] at hx; exact Or.inl hx
  | cons p rest ih =>
    intro final seen x hx
    by_cases hp : p ∈ seen
    · simp only [riddleDedup, if_pos hp] at hx
      by_cases hl : 5 ≤ final.length
      · rw [if_pos hl] at hx; exact Or.inl hx
      · rw [if_neg hl] at hx
        rcases ih final seen x hx with h | h
        · exact Or.inl h
        · exact Or.inr (List.mem_cons_of_mem _ h)
    · simp only [riddleDedup, if_neg hp] at hx
      by_cases hl : 5 ≤ (final ++ [p]).length
      · rw [if_pos hl] at hx
        rcases List.mem_append.mp hx with h | h
        · exact Or.inl h
        · exact Or.inr (by simp at h; simp [h])
      · rw [if_neg hl] at hx
        rcases ih (final ++ [p]) (seen ++ [p]) x hx with h | h
        · rcases List.mem_append.mp h with h2 | h2
          · exact Or.inl h2
          · exact Or.inr (by simp at h2; simp [h2])
        · exact Or.inr (List.mem_cons_of_mem _ h)

theorem riddleDedup_ne_nil (p : String) (rest : List String) :
    riddleDedup (p :: rest) [] [] ≠ [] := by
  have hp : p ∉ ([] : List String) := by simp
  simp only [riddleDedup, if_neg hp]
  by_cases hl : 5 ≤ ([] ++ [p] : List String).length
  · rw [if_pos hl]; simp
  · rw [if_neg hl]
    obtain ⟨ext, hext⟩ := riddleDedup_extends rest ([] ++ [p]) ([] ++ [p])
    rw [hext]; simp

/-- A riddle result list that is non-empty whenever its input is. -/
theorem riddleDedup_result_ne_nil (parts : List String) (h : parts ≠ []) :
    riddleDedup parts [] [] ≠ [] := by
  cases parts with
  | nil => exact absurd rfl h
  | cons p rest => exact riddleDedup_ne_nil p rest

/-- Joining a non-empty list of non-empty strings yields a non-empty
string. -/
theorem join_ne_empty (l : List String) (hne : l ≠ []) (hall : ∀ x ∈ l, x ≠ "") :
    (⟨(l.map String.data).flatten⟩ : String) ≠ "" := by
  cases l with
  | nil => exact absurd rfl hne
  | cons x t =>
    intro heq
    have hdata : ((x :: t).map String.data).flatten = [] := congrArg String.data heq
    simp only [List.map_cons, List.flatten_cons] at hdata
    have hx : x.data = [] := (List.append_eq_nil.mp hdata).1
    obtain ⟨d⟩ := x
    have hd : d = [] := hx
    subst hd
    exact hall ⟨[]⟩ (List.mem_cons_self _ _) rfl

/-- Unfolding of synth_emoji_riddle into its de-duplication pass. -/
theorem synth_emoji_riddle_def (title : String) (genres : List String)
    (af : Option AudioFeatures) :
    synth_emoji_riddle title genres af =
      ⟨((riddleDedup
          (if emoji_from_title title ++ emoji_from_genres genres ++
              emoji_from_audio_features af = []
           then ["🎵", "✨", "🎧"]
           else emoji_from_title title ++ emoji_from_genres genres ++
              emoji_from_audio_features af) [] []).map String.data).flatten⟩ := rfl

/-- Every glyph of the synthesized riddle is a non-empty string and the
de-duplicated glyph list is non-empty, so the joined riddle string is
never empty. -/
theorem synth_emoji_riddle_ne_empty (title : String) (genres : List String)
    (af : Option AudioFeatures) : synth_emoji_riddle title genres af ≠ "" := by
  rw [synth_emoji_riddle_def]
  set parts := emoji_from_title title ++ emoji_from_genres genres ++
    emoji_from_audio_features af with hparts
  set parts2 := if parts = [] then (["🎵", "✨", "🎧"] : List String) else parts with hparts2
  have hall : ∀ x ∈ parts2, x ≠ "" := by
    intro x hx
    rw [hparts2] at hx
    by_cases hp : parts = []
    · rw [if_pos hp] at hx
      have hpool : ∀ y ∈ (["🎵", "✨", "🎧"] : List String), y ≠ "" := by decide
      exact hpool x hx
    · rw [if_neg hp] at hx
      rw [hparts] at hx
      rcases List.mem_append.mp hx with h | h
      · rcases List.mem_append.mp h with h2 | h2
        · exact emoji_from_title_ne_empty title x h2
        · exact emoji_from_genres_ne_empty genres x h2
      · exact emoji_from_audio_features_ne_empty af x h
  have hne : parts2 ≠ [] := by
    rw [hparts2]
    by_cases hp : parts = []
    · rw [if_pos hp]; simp
    · rw [if_neg hp]; exact hp
  have hres : ∀ x ∈ riddleDedup parts2 [] [], x ≠ "" := by
    intro x hx
    rcases riddleDedup_sources parts2 [] [] x hx with h | h
    · cases h
    · exact hall x h
  exact join_ne_empty _ (riddleDedup_result_ne_nil parts2 hne) hres

/-- C6 (amended): emoji_from_title itself can return no glyphs — the
empty title yields the empty list — and the non-emptiness guarantee
holds one level up: for every title (including the empty string), genre
list and audio features, the synthesized riddle string is non-empty. -/
theorem claim_c6_riddle_nonempty_amended (title : String) (genres : List String)
    (af : Option AudioFeatures) : synth_emoji_riddle title genres af ≠ "" :=
  synth_emoji_riddle_ne_empty title genres af

/-- C6 counterexample: on the empty title the title pass returns the
empty glyph list, refuting that emoji_from_title returns a non-empty
glyph sequence for every title. -/
theorem claim_c6_counterexample : emoji_from_title "" = [] := by decide

/-- C7 (amended): whenever the title, genre and acoustic passes together
yield no glyphs, synth_emoji_riddle substitutes the fixed deterministic
three-glyph sequence 🎵✨🎧 (not a randomly sized 2-3 glyph pick), and
the returned riddle is non-empty for every input. -/
theorem claim_c7_fallback_amended (title : String) (genres : List String)
    (af : Option AudioFeatures) :
    (emoji_from_title title ++ emoji_from_genres genres ++
        emoji_from_audio_features af = [] →
      synth_emoji_riddle title genres af = "🎵✨🎧") ∧
    synth_emoji_riddle title genres af ≠ "" := by
  constructor
  · intro h
    unfold synth_emoji_riddle
    rw [h]
    decide
  · exact synth_emoji_riddle_ne_empty title genres af

theorem claim_c7_witness :
    synth_emoji_riddle "qqq" [] none = "🎵✨🎧" ∧
    synth_emoji_riddle "qqq" [] none ≠ "" :=
  ⟨(claim_c7_fallback_amended "qqq" [] none).1 (by decide),
   (claim_c7_fallback_amended "qqq" [] none).2⟩

/-- C7 counterexample: on an input where all passes are empty the
substituted fallback is the fixed three-glyph string 🎵✨🎧 — its length
is always three, not a randomly chosen two or three. -/
theorem claim_c7_counterexample : synth_emoji_riddle "zzz" [] none = "🎵✨🎧" := by decide

/-- A podcast-episode playlist entry: a non-track media type with a
non-null identifier and is_local unset. -/
def episodeItem : PlaylistTrack :=
  { id := some "ep1", name := some "A Podcast Episode", artists := [],
    album_name := none, album_release_date := none, preview_url := none,
    popularity := none, external_spotify_url := none,
    is_local := false, media_type := "episode" }

/-- A catalog-track playlist entry whose identifier is null. -/
def nullIdItem : PlaylistTrack :=
  { id := none, name := some "Ghost Track", artists := [],
    album_name := none, album_release_date := none, preview_url := none,
    popularity := none, external_spotify_url := none,
    is_local := false, media_type := "track" }

/-- C2 counterexample: a non-track (episode) entry and an entry with a
null identifier are both retained by the filtering loop, refuting that
such entries are skipped. -/
theorem claim_c2_counterexample :
    episodeItem.media_type = "episode" ∧ episodeItem.is_local = false ∧
    nullIdItem.id = none ∧ nullIdItem.is_local = false ∧
    flatten_items [some episodeItem, some nullIdItem] =
      [flatten_track episodeItem, flatten_track nullIdItem] :=
  ⟨rfl, rfl, rfl, rfl, rfl⟩

/-- C2 (amended): an entry is retained exactly when its track payload is
present (truthy) and its is_local flag is not set; the media type and
the identifier are never examined, so episode payloads and null-id
payloads are retained too. -/
theorem claim_c2_retention_amended (items : List (Option PlaylistTrack)) :
    flatten_items items =
      ((items.filterMap id).filter (fun t => !t.is_local)).map flatten_track := by
  induction items with
  | nil => rfl
  | cons it rest ih =>
    cases it with
    | none => simpa [flatten_items] using ih
    | some t =>
      by_cases h : t.is_local
      · simp [flatten_items, h, ih]
      · simp [flatten_items, h, ih]

/-- C3 counterexample: for a URL whose path holds a playlist segment
that is not the first segment, the code returns the last segment, not
the segment following the playlist segment. -/
theorem claim_c3_counterexample :
    parse_playlist_id "https://service.example/a/playlist/ABC/extra" = some "extra" ∧
    some "extra" ≠ some "ABC" := ⟨by decide, by decide⟩

/-- C3 (amended): for a reference with the service URI prefix the result
is the text after the last colon; for any other reference the path is
split into non-empty segments and the result is the second segment when
the FIRST segment is literally playlist and at least two segments exist,
and in every other case — including when the sole segment is playlist —
the last segment (none when no segment exists). -/
theorem claim_c3_parse_playlist_id_amended :
    (∀ url : String, pyStartsWith url "spotify:playlist:" = true →
      parse_playlist_id url = some ((pySplit ':' url).getLastD "")) ∧
    (∀ url : String, pyStartsWith url "spotify:playlist:" = false →
      ∀ parts : List String,
        parts = (pySplit '/' (urlparsePath url)).filter (fun p => p ≠ "") →
        (2 ≤ parts.length → parts.headD "" = "playlist" →
          parse_playlist_id url = parts.get? 1) ∧
        (¬ (2 ≤ parts.length ∧ parts.headD "" = "playlist") →
          parse_playlist_id url = parts.getLast?)) ∧
    parse_playlist_id "https://service.example/playlist/ABC123" = some "ABC123" ∧
    parse_playlist_id "spotify:playlist:XYZ987" = some "XYZ987" ∧
    parse_playlist_id "https://service.example/onlyseg" = some "onlyseg" ∧
    parse_playlist_id "https://service.example/playlist" = some "playlist" := by
  refine ⟨?_, ?_, by decide, by decide, by decide, by decide⟩
  · intro url h
    simp only [parse_playlist_id, h, if_true]
  · intro url h parts hparts
    constructor
    · intro h1 h2
      simp only [parse_playlist_id, h, Bool.false_eq_true, if_false]
      rw [← hparts, if_pos ⟨h1, h2⟩]
    · intro h2
      simp only [parse_playlist_id, h, Bool.false_eq_true, if_false]
      rw [← hparts, if_neg h2]

theorem claim_c3_witness :
    parse_playlist_id "spotify:playlist:AAA" = some "AAA" ∧
    parse_playlist_id "https://service.example/playlist/BBB/ccc" = some "BBB" ∧
    parse_playlist_id "https://service.example/playlist" = some "playlist" := by
  refine ⟨?_, ?_, ?_⟩
  · have h := claim_c3_parse_playlist_id_amended.1 "spotify:playlist:AAA" (by decide)
    rw [h]; decide
  · have h := (claim_c3_parse_playlist_id_amended.2.1 "https://service.example/playlist/BBB/ccc"
      (by decide) ["playlist", "BBB", "ccc"] (by decide)).1 (by decide) (by decide)
    rw [h]; decide
  · have h := (claim_c3_parse_playlist_id_amended.2.1 "https://service.example/playlist"
      (by decide) ["playlist"] (by decide)).2 (by decide)
    rw [h]; decide

theorem isDigit_not_space {c : Char} (h : c.isDigit = true) : pySpaceChar c = false := by
  have h1 : c ≠ ' ' := fun e => absurd h (by subst e; decide)
  have h2 : c ≠ '\t' := fun e => absurd h (by subst e; decide)
  have h3 : c ≠ '\n' := fun e => absurd h (by subst e; decide)
  have h4 : c ≠ '\r' := fun e => absurd h (by subst e; decide)
  have h5 : c ≠ '\x0b' := fun e => absurd h (by subst e; decide)
  have h6 : c ≠ '\x0c' := fun e => absurd h (by subst e; decide)
  simp [pySpaceChar, h1, h2, h3, h4, h5, h6]

theorem dropWhile_space_id (l : List Char) (h : ∀ c ∈ l, pySpaceChar c = false) :
    l.dropWhile pySpaceChar = l := by
  cases l with
  | nil => rfl
  | cons c r =>
    rw [List.dropWhile_cons, if_neg (by simp [h c (List.mem_cons_self c r)])]

theorem pyStrip_of_no_space (l : List Char) (h : ∀ c ∈ l, pySpaceChar c = false) :
    pyStrip ⟨l⟩ = ⟨l⟩ := by
  unfold pyStrip
  exact congrArg String.mk (by
    rw [dropWhile_space_id l h,
      dropWhile_space_id _ (fun c hc => h c (List.mem_reverse.mp hc)),
      List.reverse_reverse])

theorem pyDigitRunFrom_digits : ∀ (l : List Char) (acc : Nat), l.all Char.isDigit = true →
    pyDigitRunFrom acc l =
      some (l.foldl (fun a c => a * 10 + (c.toNat - 48)) acc) := by
  intro l
  induction l with
  | nil => intro acc _; rfl
  | cons c rest ih =>
    intro acc h
    simp only [List.all_cons, Bool.and_eq_true] at h
    cases rest with
    | nil => rw [pyDigitRunFrom, if_pos h.1]; rfl
    | cons c2 rest2 =>
      rw [pyDigitRunFrom, if_pos h.1, ih _ h.2]
      rfl

theorem pyInt_digits (c : Char) (rest : List Char)
    (h : (c :: rest).all Char.isDigit = true) :
    pyInt ⟨c :: rest⟩ = some ((digitsVal (c :: rest) : Nat) : Int) := by
  have hall := List.all_eq_true.mp h
  have hns : ∀ x ∈ (c :: rest), pySpaceChar x = false := fun x hx =>
    isDigit_not_space (hall x hx)
  have hcd : c.isDigit = true := hall c (List.mem_cons_self _ _)
  have hplus : ¬ c = '+' := fun e => by subst e; exact absurd hcd (by decide)
  have hminus : ¬ c = '-' := fun e => by subst e; exact absurd hcd (by decide)
  unfold pyInt
  rw [pyStrip_of_no_space _ hns]
  have hdata : (⟨c :: rest⟩ : String).data = c :: rest := rfl
  rw [hdata]
  rw [pyIntCore, if_neg hplus, if_neg hminus]
  have hrun : pyDigitRun (c :: rest) = pyDigitRunFrom (c.toNat - 48) rest := by
    rw [pyDigitRun, if_pos hcd]
  rw [hrun, pyDigitRunFrom_digits rest _ (List.all_eq_true.mpr (fun x hx =>
    hall x (List.mem_cons_of_mem _ hx)))]
  simp [digitsVal]

/-- C4: year_from_date parses the first four characters of the release
date as an integer — any four-digit prefix yields its decimal value —
and returns None instead of raising whenever that parse fails; in
particular the given examples hold, and the function is by construction
the integer parse of the four-character prefix. -/
theorem claim_c4_year_from_date :
    year_from_date "1989-06-23" = some 1989 ∧
    year_from_date "1989" = some 1989 ∧
    year_from_date "" = none ∧
    year_from_date "unknown" = none ∧
    (∀ s : String, year_from_date s = pyInt ⟨s.data.take 4⟩) ∧
    (∀ (c1 c2 c3 c4 : Char) (rest : List Char),
      c1.isDigit = true → c2.isDigit = true → c3.isDigit = true → c4.isDigit = true →
      year_from_date ⟨c1 :: c2 :: c3 :: c4 :: rest⟩ =
        some ((digitsVal [c1, c2, c3, c4] : Nat) : Int)) := by
  refine ⟨by decide, by decide, by decide, by decide, fun s => rfl, ?_⟩
  intro c1 c2 c3 c4 rest h1 h2 h3 h4
  have htake : (⟨c1 :: c2 :: c3 :: c4 :: rest⟩ : String).data.take 4 =
      [c1, c2, c3, c4] := by
    simp [List.take_succ_cons]
  unfold year_from_date
  rw [htake]
  exact pyInt_digits c1 [c2, c3, c4] (by simp [List.all_cons, h1, h2, h3, h4])

theorem claim_c4_witness :
    year_from_date ⟨'2' :: '0' :: '2' :: '4' :: "-01-01".data⟩ = some 2024 := by
  have h := claim_c4_year_from_date.2.2.2.2.2 '2' '0' '2' '4' "-01-01".data
    (by decide) (by decide) (by decide) (by decide)
  rw [h]; decide

theorem pipeline_eq (items : List (Option PlaylistTrack))
    (ac : List (Option String) → Except String (List (Option AFEntry)))
    (arc : List String → Except String (List ArtistEntry)) (o : Oracle) :
    pipeline items ac arc o =
      if flatten_items items = [] then Except.error RunError.noTracks
      else
        match fetchBatches ac (chunkList 100 ((flatten_items items).map RawTrack.id)) with
        | .error e => Except.error (RunError.enrichmentFailure e)
        | .ok afEntries =>
            match fetchBatches arc
                (chunkList 50 ((artist_ids_of (flatten_items items)).filter
                  (fun a => !(a == "")))) with
            | .error e => Except.error (RunError.enrichmentFailure e)
            | .ok artistEntries =>
                Except.ok ((List.range (flatten_items items).length).map (fun i =>
                  buildRow (flatten_items items)
                    (fun k => List.lookup k (afMapOfEntries afEntries))
                    (fun k => (List.lookup k (genreMapOfEntries artistEntries)).getD [])
                    o i)) := by
  rfl

/-- Input data of a single-track run used to instantiate the pipeline
theorems. -/
def wItem : PlaylistTrack :=
  { id := some "w", name := some "W", artists := [],
    album_name := none, album_release_date := none, preview_url := none,
    popularity := none, external_spotify_url := none,
    is_local := false, media_type := "track" }

/-- An oracle whose draws are all trivial. -/
def wOracle : Oracle :=
  { shuffledIdxs := fun _ => [0], shuffleChoices := fun _ l => l, overwriteSlot := fun _ => 0 }

/-- An audio-features batch call whose request raises. -/
def failAfCall : List (Option String) → Except String (List (Option AFEntry)) :=
  fun _ => Except.error "audio-features batch failed"

/-- An audio-features batch call returning no feature entries. -/
def wAfCall : List (Option String) → Except String (List (Option AFEntry)) :=
  fun _ => Except.ok []

/-- An artists batch call returning no artist entries. -/
def wArtistsCall : List String → Except String (List ArtistEntry) :=
  fun _ => Except.ok []

/-- C5 counterexample: on a one-track playlist whose sp.audio_features
batch call raises, the run halts fatally with the enrichment error — an
outcome that is neither the no-tracks abort nor a listing fetch
failure, so a fetch failure and the empty filtered result are not the
only fatal halting conditions as the claim states. -/
theorem claim_c5_counterexample :
    runPipeline (Except.ok [some wItem]) failAfCall wArtistsCall wOracle =
      Except.error (RunError.enrichmentFailure "audio-features batch failed") ∧
    RunError.enrichmentFailure "audio-features batch failed" ≠ RunError.noTracks ∧
    ∀ msg : String,
      RunError.enrichmentFailure "audio-features batch failed" ≠
        RunError.fetchFailure msg := by
  exact ⟨rfl, by decide, fun msg h => RunError.noConfusion h⟩

/-- C5 (amended): the empty filtered result aborts the run with the
user-facing no-tracks message before any row is produced; a run halts
fatally on a failed listing fetch, on the empty result, or — beyond the
two conditions the claim names — on a raising enrichment batch call
(sp.audio_features or sp.artists), which nothing catches; and every
successful run returns the complete dataset, one row per eligible track
with sequential row identifiers, so a run still yields either a whole
dataset or none. -/
theorem claim_c5_halting_amended :
    (∀ (items : List (Option PlaylistTrack))
        (ac : List (Option String) → Except String (List (Option AFEntry)))
        (arc : List String → Except String (List ArtistEntry)) (o : Oracle),
      pipeline items ac arc o = Except.error RunError.noTracks ↔
        flatten_items items = []) ∧
    runErrorMessage RunError.noTracks = "No tracks found (is the playlist private?)." ∧
    (∀ (fetched : Except String (List (Option PlaylistTrack)))
        (ac : List (Option String) → Except String (List (Option AFEntry)))
        (arc : List String → Except String (List ArtistEntry)) (o : Oracle)
        (e : String), fetched = Except.error e →
      runPipeline fetched ac arc o = Except.error (RunError.fetchFailure e)) ∧
    (∀ (items : List (Option PlaylistTrack))
        (ac : List (Option String) → Except String (List (Option AFEntry)))
        (arc : List String → Except String (List ArtistEntry)) (o : Oracle)
        (e : String),
      pipeline items ac arc o = Except.error (RunError.enrichmentFailure e) ↔
        (flatten_items items ≠ [] ∧
          (fetchBatches ac (chunkList 100 ((flatten_items items).map RawTrack.id)) =
              Except.error e ∨
            (∃ afEntries,
              fetchBatches ac (chunkList 100 ((flatten_items items).map RawTrack.id)) =
                Except.ok afEntries ∧
              fetchBatches arc (chunkList 50 ((artist_ids_of (flatten_items items)).filter
                (fun a => !(a == "")))) = Except.error e)))) ∧
    (∀ (fetched : Except String (List (Option PlaylistTrack)))
        (ac : List (Option String) → Except String (List (Option AFEntry)))
        (arc : List String → Except String (List ArtistEntry)) (o : Oracle)
        (rows : List Row), runPipeline fetched ac arc o = Except.ok rows →
      ∃ items, fetched = Except.ok items ∧
        rows.length = (flatten_items items).length ∧
        ∀ (kk : Nat) (hkk : kk < rows.length), (rows.get ⟨kk, hkk⟩).id = "sp_" ++ pad4 kk) := by
  refine ⟨?_, rfl, ?_, ?_, ?_⟩
  · intro items ac arc o
    rw [pipeline_eq]
    by_cases h : flatten_items items = []
    · rw [if_pos h]; simp [h]
    · rw [if_neg h]
      cases haf : fetchBatches ac (chunkList 100 ((flatten_items items).map RawTrack.id)) with
      | error e1 => simp [h]
      | ok afE =>
        cases har : fetchBatches arc (chunkList 50 ((artist_ids_of (flatten_items items)).filter
            (fun a => !(a == "")))) with
        | error e2 => simp [h]
        | ok arE => simp [h]
  · intro fetched ac arc o e he
    subst he; rfl
  · intro items ac arc o e
    rw [pipeline_eq]
    by_cases h : flatten_items items = []
    · rw [if_pos h]; simp [h]
    · rw [if_neg h]
      cases haf : fetchBatches ac (chunkList 100 ((flatten_items items).map RawTrack.id)) with
      | error e1 => simp [h]
      | ok afE =>
        cases har : fetchBatches arc (chunkList 50 ((artist_ids_of (flatten_items items)).filter
            (fun a => !(a == "")))) with
        | error e2 => simp [h]
        | ok arE => simp [h]
  · intro fetched ac arc o rows hok
    cases fetched with
    | error e => simp [runPipeline] at hok
    | ok items =>
      refine ⟨items, rfl, ?_⟩
      have hok2 : pipeline items ac arc o = Except.ok rows := hok
      rw [pipeline_eq] at hok2
      by_cases h : flatten_items items = []
      · rw [if_pos h] at hok2; cases hok2
      · rw [if_neg h] at hok2
        revert hok2
        cases haf : fetchBatches ac (chunkList 100 ((flatten_items items).map RawTrack.id)) with
        | error e1 => intro hok2; simp at hok2
        | ok afE =>
          cases har : fetchBatches arc (chunkList 50 ((artist_ids_of (flatten_items items)).filter
              (fun a => !(a == "")))) with
          | error e2 => intro hok2; simp at hok2
          | ok arE =>
            intro hok2
            have hok3 : Except.ok ((List.range (flatten_items items).length).map (fun i =>
                buildRow (flatten_items items)
                  (fun k => List.lookup k (afMapOfEntries afE))
                  (fun k => (List.lookup k (genreMapOfEntries arE)).getD [])
                  o i)) = Except.ok rows := hok2
            injection hok3 with hrows
            subst hrows
            constructor
            · simp
            · intro kk hkk
              have hget : ((List.range (flatten_items items).length).map (fun i =>
                  buildRow (flatten_items items)
                    (fun k => List.lookup k (afMapOfEntries afE))
                    (fun k => (List.lookup k (genreMapOfEntries arE)).getD [])
                    o i)).get ⟨kk, hkk⟩ =
                  buildRow (flatten_items items)
                    (fun k => List.lookup k (afMapOfEntries afE))
                    (fun k => (List.lookup k (genreMapOfEntries arE)).getD []) o kk := by
                simp [List.get_eq_getElem]
              rw [hget]
              rfl

theorem claim_c5_witness :
    pipeline [] wAfCall wArtistsCall wOracle = Except.error RunError.noTracks ∧
    runPipeline (Except.error "listing failed") wAfCall wArtistsCall wOracle =
      Except.error (RunError.fetchFailure "listing failed") ∧
    pipeline [some wItem] failAfCall wArtistsCall wOracle =
      Except.error (RunError.enrichmentFailure "audio-features batch failed") ∧
    (∃ rows, runPipeline (Except.ok [some wItem]) wAfCall wArtistsCall wOracle =
        Except.ok rows ∧ rows.length = 1) := by
  refine ⟨?_, ?_, ?_, ?_⟩
  · exact (claim_c5_halting_amended.1 [] wAfCall wArtistsCall wOracle).mpr rfl
  · exact claim_c5_halting_amended.2.2.1 (Except.error "listing failed") wAfCall wArtistsCall
      wOracle "listing failed" rfl
  · exact (claim_c5_halting_amended.2.2.2.1 [some wItem] failAfCall wArtistsCall wOracle
      "audio-features batch failed").mpr ⟨by decide, Or.inl rfl⟩
  · obtain ⟨items, hitems, hlen, _⟩ := claim_c5_halting_amended.2.2.2.2
      (Except.ok [some wItem]) wAfCall wArtistsCall wOracle
      ((List.range (flatten_items [some wItem]).length).map (fun i =>
        buildRow (flatten_items [some wItem])
          (fun k => List.lookup k (afMapOfEntries []))
          (fun k => (List.lookup k (genreMapOfEntries [])).getD []) wOracle i))
      rfl
    injection hitems with hi
    subst hi
    refine ⟨(List.range (flatten_items [some wItem]).length).map (fun i =>
        buildRow (flatten_items [some wItem])
          (fun k => List.lookup k (afMapOfEntries []))
          (fun k => (List.lookup k (genreMapOfEntries [])).getD []) wOracle i),
      rfl, hlen.trans rfl⟩

/-- A fully supplied descriptor set whose tempo is zero. -/
def tempoZeroAF : AudioFeatures :=
  { danceability := some 0, energy := some 0, valence := some (mkRat 1 2),
    acousticness := some 0, tempo := some 0 }

/-- C8 counterexample: a supplied descriptor set with tempo 0 satisfies
tempo ≤ 80, yet the slow glyph is not contributed — the code guards the
tempo thresholds behind a truthiness test — so the claimed threshold
behaviour fails at tempo zero. -/
theorem claim_c8_counterexample :
    tempoZeroAF.tempo = some 0 ∧ ((0 : ℚ) ≤ mkRat 80 1) ∧
    emoji_from_audio_features (some tempoZeroAF) = [] := by
  refine ⟨rfl, by decide, by decide⟩

/-- The uncapped acoustic glyph contributions, written from the amended
claim: the fixed thresholds apply as stated, except that a tempo of zero
(falsy in the code) contributes nothing. -/
def audioGlyphSpec (af : AudioFeatures) : List String :=
  (if mkRat 7 10 ≤ af.danceability.getD 0 then ["🕺"] else []) ++
  (if mkRat 7 10 ≤ af.energy.getD 0 then ["⚡"] else []) ++
  (if mkRat 65 100 ≤ af.valence.getD 0 then ["😊"]
   else if af.valence.getD 0 ≤ mkRat 35 100 then ["😢"] else []) ++
  (if mkRat 6 10 ≤ af.acousticness.getD 0 then ["🎻"] else []) ++
  (if af.tempo.getD 0 ≠ 0 ∧ mkRat 130 1 ≤ af.tempo.getD 0 then ["⏱️"]
   else if af.tempo.getD 0 ≠ 0 ∧ af.tempo.getD 0 ≤ mkRat 80 1 then ["🐢"] else [])

theorem mem_ite_singleton {c : Prop} [Decidable c] (x a : String) :
    (x ∈ if c then [a] else ([] : List String)) ↔ c ∧ x = a := by
  by_cases h : c
  · simp [h]
  · simp [h]

theorem mem_ite_ite_singleton {c1 c2 : Prop} [Decidable c1] [Decidable c2] (x a b : String) :
    (x ∈ if c1 then [a] else if c2 then [b] else ([] : List String)) ↔
      (c1 ∧ x = a) ∨ (¬ c1 ∧ c2 ∧ x = b) := by
  by_cases h1 : c1
  · simp [h1]
  · by_cases h2 : c2
    · simp [h1, h2]
    · simp [h1, h2]

theorem tempo_segment_eq (t : ℚ) :
    (if t ≠ 0 then
      (if mkRat 130 1 ≤ t then ["⏱️"] else if t ≤ mkRat 80 1 then ["🐢"] else [])
     else []) =
    (if t ≠ 0 ∧ mkRat 130 1 ≤ t then ["⏱️"]
     else if t ≠ 0 ∧ t ≤ mkRat 80 1 then ["🐢"] else []) := by
  by_cases h0 : t ≠ 0
  · by_cases h130 : mkRat 130 1 ≤ t
    · rw [if_pos h0, if_pos h130, if_pos ⟨h0, h130⟩]
    · by_cases h80 : t ≤ mkRat 80 1
      · rw [if_pos h0, if_neg h130, if_pos h80, if_neg (fun hc => h130 hc.2),
          if_pos ⟨h0, h80⟩]
      · rw [if_pos h0, if_neg h130, if_neg h80, if_neg (fun hc => h130 hc.2),
          if_neg (fun hc => h80 hc.2)]
  · rw [if_neg h0, if_neg (fun hc => h0 hc.1), if_neg (fun hc => h0 hc.1)]

set_option maxHeartbeats 1600000 in
/-- C8 (amended): emoji_from_audio_features applies exactly the fixed
thresholds of the claim with one correction — the tempo glyphs require a
nonzero (truthy) tempo — each contribution appears iff its threshold
holds, the positive/negative and fast/slow glyph pairs are mutually
exclusive, and the emitted contribution is the first three glyphs. -/
theorem claim_c8_audio_thresholds_amended (af : AudioFeatures) :
    emoji_from_audio_features (some af) = (audioGlyphSpec af).take 3 ∧
    (emoji_from_audio_features (some af)).length ≤ 3 ∧
    ("🕺" ∈ audioGlyphSpec af ↔ mkRat 7 10 ≤ af.danceability.getD 0) ∧
    ("⚡" ∈ audioGlyphSpec af ↔ mkRat 7 10 ≤ af.energy.getD 0) ∧
    ("😊" ∈ audioGlyphSpec af ↔ mkRat 65 100 ≤ af.valence.getD 0) ∧
    ("😢" ∈ audioGlyphSpec af ↔
      (af.valence.getD 0 ≤ mkRat 35 100 ∧ ¬ mkRat 65 100 ≤ af.valence.getD 0)) ∧
    ("🎻" ∈ audioGlyphSpec af ↔ mkRat 6 10 ≤ af.acousticness.getD 0) ∧
    ("⏱️" ∈ audioGlyphSpec af ↔
      (af.tempo.getD 0 ≠ 0 ∧ mkRat 130 1 ≤ af.tempo.getD 0)) ∧
    ("🐢" ∈ audioGlyphSpec af ↔
      (af.tempo.getD 0 ≠ 0 ∧ af.tempo.getD 0 ≤ mkRat 80 1 ∧
        ¬ mkRat 130 1 ≤ af.tempo.getD 0)) ∧
    ¬ ("😊" ∈ audioGlyphSpec af ∧ "😢" ∈ audioGlyphSpec af) ∧
    ¬ ("⏱️" ∈ audioGlyphSpec af ∧ "🐢" ∈ audioGlyphSpec af) := by
  have heq : emoji_from_audio_features (some af) = (audioGlyphSpec af).take 3 := by
    simp only [emoji_from_audio_features, audioGlyphSpec]
    rw [tempo_segment_eq]
  have hdance : "🕺" ∈ audioGlyphSpec af ↔ mkRat 7 10 ≤ af.danceability.getD 0 := by
    unfold audioGlyphSpec
    simp [mem_ite_singleton, mem_ite_ite_singleton]
  have henergy : "⚡" ∈ audioGlyphSpec af ↔ mkRat 7 10 ≤ af.energy.getD 0 := by
    unfold audioGlyphSpec
    simp [mem_ite_singleton, mem_ite_ite_singleton]
  have hsmile : "😊" ∈ audioGlyphSpec af ↔ mkRat 65 100 ≤ af.valence.getD 0 := by
    unfold audioGlyphSpec
    simp [mem_ite_singleton, mem_ite_ite_singleton]
  have hcry : "😢" ∈ audioGlyphSpec af ↔
      (af.valence.getD 0 ≤ mkRat 35 100 ∧ ¬ mkRat 65 100 ≤ af.valence.getD 0) := by
    unfold audioGlyphSpec
    simp [mem_ite_singleton, mem_ite_ite_singleton]
    exact and_comm
  have hac : "🎻" ∈ audioGlyphSpec af ↔ mkRat 6 10 ≤ af.acousticness.getD 0 := by
    unfold audioGlyphSpec
    simp [mem_ite_singleton, mem_ite_ite_singleton]
  have hfast : "⏱️" ∈ audioGlyphSpec af ↔
      (af.tempo.getD 0 ≠ 0 ∧ mkRat 130 1 ≤ af.tempo.getD 0) := by
    unfold audioGlyphSpec
    simp [mem_ite_singleton, mem_ite_ite_singleton]
  have hslow : "🐢" ∈ audioGlyphSpec af ↔
      (af.tempo.getD 0 ≠ 0 ∧ af.tempo.getD 0 ≤ mkRat 80 1 ∧
        ¬ mkRat 130 1 ≤ af.tempo.getD 0) := by
    unfold audioGlyphSpec
    simp [mem_ite_singleton, mem_ite_ite_singleton]
    constructor
    · rintro ⟨h1, h2, h3⟩
      exact ⟨h2, h3, h1 h2⟩
    · rintro ⟨h1, h2, h3⟩
      exact ⟨fun _ => h3, h1, h2⟩
  refine ⟨heq, ?_, hdance, henergy, hsmile, hcry, hac, hfast, hslow, ?_, ?_⟩
  · rw [heq]; exact List.length_take_le _ _
  · rintro ⟨h1, h2⟩
    exact (hcry.mp h2).2 (hsmile.mp h1)
  · rintro ⟨h1, h2⟩
    exact (hslow.mp h2).2.2 (hfast.mp h1).2

/-- A descriptor set with high danceability used to instantiate the
threshold theorem. -/
def danceAF : AudioFeatures :=
  { danceability := some 1, energy := some 0, valence := some (mkRat 1 2),
    acousticness := some 0, tempo := some 0 }

theorem claim_c8_witness :
    emoji_from_audio_features (some danceAF) = (audioGlyphSpec danceAF).take 3 ∧
    "🕺" ∈ audioGlyphSpec danceAF :=
  ⟨(claim_c8_audio_thresholds_amended danceAF).1,
   (claim_c8_audio_thresholds_amended danceAF).2.2.1.mpr (by decide)⟩

/-- C9: score_year awards the maximum 500 points with error 0 whenever
the true year or the guess fails to coerce to an integer — an unknown
release year gives full points, not zero — and otherwise awards
max(0, 500 − 50·|true − guess|) with the absolute error; the score is
always an integer in [0, 500] and the error is non-negative. -/
theorem claim_c9_score_year (yt yg : PyVal) :
    ((to_int_or_none yt = none ∨ to_int_or_none yg = none) →
      score_year yt yg = (500, 0)) ∧
    (∀ a b : Int, to_int_or_none yt = some a → to_int_or_none yg = some b →
      score_year yt yg = (max 0 (500 - 50 * |a - b|), |a - b|)) ∧
    0 ≤ (score_year yt yg).1 ∧ (score_year yt yg).1 ≤ 500 ∧
    0 ≤ (score_year yt yg).2 := by
  have key : ∀ a b : Int, to_int_or_none yt = some a → to_int_or_none yg = some b →
      score_year yt yg = (max 0 (500 - 50 * |a - b|), |a - b|) := by
    intro a b ha hb
    simp only [score_year, ha, hb]
  have key0 : (to_int_or_none yt = none ∨ to_int_or_none yg = none) →
      score_year yt yg = (500, 0) := by
    intro h
    rcases hy : to_int_or_none yt with _ | a
    · rcases hg : to_int_or_none yg with _ | b <;> simp only [score_year, hy, hg]
    · rcases hg : to_int_or_none yg with _ | b
      · simp only [score_year, hy, hg]
      · rcases h with h | h
        · rw [hy] at h; exact absurd h (by simp)
        · rw [hg] at h; exact absurd h (by simp)
  have hbounds : 0 ≤ (score_year yt yg).1 ∧ (score_year yt yg).1 ≤ 500 ∧
      0 ≤ (score_year yt yg).2 := by
    rcases hy : to_int_or_none yt with _ | a
    · rw [key0 (Or.inl hy)]
      exact ⟨by decide, by decide, by decide⟩
    · rcases hg : to_int_or_none yg with _ | b
      · rw [key0 (Or.inr hg)]
        exact ⟨by decide, by decide, by decide⟩
      · rw [key a b hy hg]
        have h2 : (0 : Int) ≤ |a - b| := abs_nonneg _
        refine ⟨?_, ?_, ?_⟩ <;> (dsimp only; omega)
  exact ⟨key0, key, hbounds.1, hbounds.2.1, hbounds.2.2⟩

theorem claim_c9_witness :
    score_year (PyVal.vstr "unknown") (PyVal.vint 1990) = (500, 0) ∧
    score_year (PyVal.vint 1989) (PyVal.vint 1991) = (400, 2) := by
  constructor
  · exact (claim_c9_score_year (PyVal.vstr "unknown") (PyVal.vint 1990)).1
      (Or.inl (by decide))
  · have h := (claim_c9_score_year (PyVal.vint 1989) (PyVal.vint 1991)).2.1
      1989 1991 rfl rfl
    rw [h]; decide

/-- C10: score_guess returns score 0 exactly when neither ground truth
is available; otherwise the score is max(50, 1000 − yearPenalty −
popPenalty) with yearPenalty = min(20·|Δyear|, 600) when the year is
known (else 0) and popPenalty = min(8·|Δpop|, 600) when the popularity
is known (else 0), an integer clamped into [50, 1000]. -/
theorem claim_c10_score_guess (yt pt : Option Int) (yg pg : Int) :
    ((yt = none ∧ pt = none) → (score_guess yt pt yg pg).score = 0) ∧
    ((yt ≠ none ∨ pt ≠ none) →
      (score_guess yt pt yg pg).score =
        max 50 (1000 -
          (match yt with
            | some y => min (20 * |y - yg|) 600
            | none => 0) -
          (match pt with
            | some p => min (8 * |p - pg|) 600
            | none => 0)) ∧
      50 ≤ (score_guess yt pt yg pg).score ∧ (score_guess yt pt yg pg).score ≤ 1000) := by
  cases yt with
  | none =>
    cases pt with
    | none =>
      refine ⟨fun _ => by simp [score_guess], ?_⟩
      rintro (h | h) <;> exact absurd rfl h
    | some p =>
      have habs : (0 : Int) ≤ |p - pg| := abs_nonneg _
      have hsc : (score_guess none (some p) yg pg).score =
          max 50 (1000 - 0 - min (8 * |p - pg|) 600) := by
        simp [score_guess]
      refine ⟨fun h => absurd h.2 (by simp), fun _ => ⟨?_, ?_, ?_⟩⟩
      · rw [hsc]
      · rw [hsc]; omega
      · rw [hsc]; omega
  | some y =>
    have habsy : (0 : Int) ≤ |y - yg| := abs_nonneg _
    cases pt with
    | none =>
      have hsc : (score_guess (some y) none yg pg).score =
          max 50 (1000 - min (20 * |y - yg|) 600 - 0) := by
        simp [score_guess]
      refine ⟨fun h => absurd h.1 (by simp), fun _ => ⟨?_, ?_, ?_⟩⟩
      · rw [hsc]
      · rw [hsc]; omega
      · rw [hsc]; omega
    | some p =>
      have habs : (0 : Int) ≤ |p - pg| := abs_nonneg _
      have hsc : (score_guess (some y) (some p) yg pg).score =
          max 50 (1000 - min (20 * |y - yg|) 600 - min (8 * |p - pg|) 600) := by
        simp [score_guess]
      refine ⟨fun h => absurd h.1 (by simp), fun _ => ⟨?_, ?_, ?_⟩⟩
      · rw [hsc]
      · rw [hsc]; omega
      · rw [hsc]; omega

theorem claim_c10_witness :
    (score_guess none none 1990 50).score = 0 ∧
    (score_guess (some 1980) none 1990 50).score = 800 ∧
    50 ≤ (score_guess (some 1900) (some 0) 2000 100).score := by
  refine ⟨(claim_c10_score_guess none none 1990 50).1 ⟨rfl, rfl⟩, ?_, ?_⟩
  · have h := ((claim_c10_score_guess (some 1980) none 1990 50).2 (Or.inl (by decide))).1
    rw [h]; decide
  · exact ((claim_c10_score_guess (some 1900) (some 0) 2000 100).2 (Or.inl (by decide))).2.1

end SongSnap
